import Mathlib

/-!
# saferwall-api: file, user and auth handlers

A shallow embedding of the request handlers of `app/handler/file/main.go`,
`app/handler/user/main.go`, `app/handler/auth/main.go` and
`internal/file/api.go`, of `app/email/main.go` and of the binder of
`internal/server/server.go`.

The handlers are Go functions over three external services: the Couchbase
document store (collections `files` and `users`), the Minio blob store and the
NSQ queue.  Here a handler is a pure function from a `World` (the contents of
the three services plus a trace of the I/O calls made) to a response and a new
`World`.  What the outside decides for one call (clock readings, which I/O
calls fail) is the `Env` argument; library functions and constants that live
outside the repository are the `Deps` argument.
-/

namespace Saferwall

/-! ## Data model -/

/-- A `time.Time` value, as a number of ticks. -/
abbrev Time := Nat

/-- The content of an uploaded file. -/
abbrev Bytes := List (Fin 256)

namespace file

/-- The type `submission` of `file/main.go`. -/
structure submission where
  Date : Option Time
  Filename : String
  Source : String
  Country : String
deriving DecidableEq, Repr

/-- The type `Comment` of `file/main.go`. -/
structure Comment where
  Timestamp : Option Time
  Username : String
  Body : String
  ID : String
deriving DecidableEq, Repr

/-- The zero value `Comment{}`. -/
def Comment.zero : Comment :=
  { Timestamp := none, Username := "", Body := "", ID := "" }

/-- The type `File` of `file/main.go`.  The fields that hold analysis results
(hashes other than sha256, magic, exif, trid, tags, packer, strings, multiav,
pe, histogram, byte entropy, type), which no handler modelled here reads or
assigns, are gathered in `Analysis`. -/
structure File where
  Sha256 : String
  Size : Int
  FirstSubmission : Option Time
  LastSubmission : Option Time
  LastScanned : Option Time
  Submissions : List submission
  Status : Int
  Comments : List Comment
  Analysis : List (String × String)
deriving DecidableEq, Repr

/-- The zero value `File{}`. -/
def File.zero : File :=
  { Sha256 := "", Size := 0, FirstSubmission := none, LastSubmission := none,
    LastScanned := none, Submissions := [], Status := 0, Comments := [],
    Analysis := [] }

/-- The constant `queued` (iota 0). -/
def queued : Int := 0

/-- The constant `processing` (iota 1). -/
def processing : Int := 1

/-- The constant `finished` (iota 2). -/
def finished : Int := 2

/-- The type `Response` of `file/main.go`. -/
structure Response where
  Sha256 : String
  Message : String
  Description : String
  Filename : String
deriving DecidableEq, Repr

end file

namespace user

/-- The type `Activity` of `user/main.go`; the field `Type` is `Type_` here, and
`Content`, a `map[string]string`, is given as its list of entries. -/
structure Activity where
  Timestamp : Option Time
  Type_ : String
  Content : List (String × String)
deriving DecidableEq, Repr

/-- The type `Submission` of `user/main.go`. -/
structure Submission where
  Timestamp : Option Time
  Sha256 : String
deriving DecidableEq, Repr

/-- The type `Comment` of `user/main.go`. -/
structure Comment where
  Timestamp : Option Time
  Sha256 : String
  Body : String
  ID : String
deriving DecidableEq, Repr

/-- The type `User` of `user/main.go`. -/
structure User where
  Email : String
  Username : String
  Password : String
  Name : String
  Location : String
  URL : String
  Bio : String
  Confirmed : Bool
  MemberSince : Option Time
  LastSeen : Option Time
  Admin : Bool
  HasAvatar : Bool
  Following : List String
  FollowingCount : Int
  Followers : List String
  FollowersCount : Int
  Likes : List String
  LikesCount : Int
  Activities : List Activity
  Submissions : List Submission
  SubmissionsCount : Int
  Comments : List Comment
  CommentsCount : Int
deriving DecidableEq, Repr

/-- The zero value `User{}`. -/
def User.zero : User :=
  { Email := "", Username := "", Password := "", Name := "", Location := "",
    URL := "", Bio := "", Confirmed := false, MemberSince := none,
    LastSeen := none, Admin := false, HasAvatar := false, Following := [],
    FollowingCount := 0, Followers := [], FollowersCount := 0, Likes := [],
    LikesCount := 0, Activities := [], Submissions := [], SubmissionsCount := 0,
    Comments := [], CommentsCount := 0 }

end user

/-- What a handler hands to `c.JSON` or `c.File`. -/
inductive Payload where
  | response (r : file.Response)
  | verbose (msg : String)
  | text (s : String)
  | file (f : file.File)
  | comment (c : file.Comment)
  | zipped (path : String)
deriving DecidableEq, Repr

/-- An HTTP answer: status code and payload. -/
structure Reply where
  code : Nat
  body : Payload
deriving DecidableEq, Repr

/-! ## The outside world -/

/-- One call to an external service. -/
inductive Effect where
  | userGet (key : String)
  | userUpsert (key : String)
  | fileGet (key : String)
  | fileUpsert (key : String)
  | putObject (key : String)
  | getObject (key : String)
  | publish (topic : String) (payload : String)
  | fileOpen (filename : String)
  | fileRead (filename : String)
  | serviceCall (method : String)
deriving DecidableEq, Repr

/-- The state of the external services: the two document collections, the
sample bucket, the messages published so far (oldest first) and the trace of
calls made so far (oldest first). -/
structure World where
  files : List (String × file.File)
  users : List (String × user.User)
  blobs : List (String × Bytes)
  queue : List (String × String)
  trace : List Effect
deriving DecidableEq, Repr

/-- What the outside decides during one handler call: the readings of
`time.Now()` (in the handler, and inside `NewActivity`), the identifier
`betterguid.New()` returns, the path `ZipEncrypt` returns, and the error, if
any, of each I/O call. -/
structure Env where
  now : Time
  activityNow : Time
  guid : String
  zipPath : String
  getUserErr : Bool
  getTargetErr : Bool
  getFileErr : Option String
  openErr : Bool
  readErr : Option String
  putObjectErr : Option String
  getObjectErr : Option String
  statErr : Option String
  zipErr : Option String
  fileSaveErr : Bool
  userSaveErr : Bool
  userSave2Err : Bool
  targetSaveErr : Bool
  publishErr : Option String
deriving DecidableEq, Repr

/-- An environment in which every I/O call succeeds. -/
def Env.ok (now activityNow : Time) (guid : String) : Env :=
  { now := now, activityNow := activityNow, guid := guid, zipPath := "",
    getUserErr := false, getTargetErr := false, getFileErr := none,
    openErr := false, readErr := none, putObjectErr := none,
    getObjectErr := none, statErr := none, zipErr := none, fileSaveErr := false,
    userSaveErr := false, userSave2Err := false, targetSaveErr := false,
    publishErr := none }

/-- Functions and constants the handlers take from outside the repository
sources at hand: `strings.ToLower`, `crypto.GetSha256` and `app.MaxFileSize`. -/
structure Deps where
  ToLower : String → String
  GetSha256 : Bytes → String
  MaxFileSize : Int

/-! ## Document store -/

/-- The call `Collection.Upsert(key, doc)`: replace the document stored under
`key`, or add it when there is none. -/
def upsert {α : Type} : List (String × α) → String → α → List (String × α)
  | [], k, v => [(k, v)]
  | (k', v') :: t, k, v =>
    if k' = k then (k, v) :: t else (k', v') :: upsert t k v

/-- The call `Collection.Get(key)`. -/
def lookup {α : Type} : List (String × α) → String → Option α
  | [], _ => none
  | (k', v') :: t, k => if k' = k then some v' else lookup t k

/-- Number of documents stored under `key`. -/
def countKey {α : Type} (s : List (String × α)) (k : String) : Nat :=
  (s.filter (fun p => decide (p.1 = k))).length

/-- Every document of the `files` collection is stored under its own
`Sha256`. -/
def KeyedByHash (files : List (String × file.File)) : Prop :=
  ∀ k f, lookup files k = some f → f.Sha256 = k

/-- Appends one call to the trace. -/
def World.log (w : World) (e : Effect) : World :=
  { w with trace := w.trace ++ [e] }

/-- The errors `GetFileBySHA256` returns: `gocb.ErrDocumentNotFound` or any
other error, with its message. -/
inductive GetError where
  | notFound
  | other (msg : String)
deriving DecidableEq, Repr

/-- The method `Error` of the error. -/
def GetError.Error : GetError → String
  | .notFound => "document not found"
  | .other msg => msg

/-- The call `NsqProducer.Publish(topic, payload)`; returns the error, if any. -/
def Publish (e : Env) (topic payload : String) (w : World) :
    Option String × World :=
  let w1 := w.log (.publish topic payload)
  match e.publishErr with
  | some msg => (some msg, w1)
  | none => (none, { w1 with queue := w1.queue ++ [(topic, payload)] })

/-- The call `MinioClient.PutObjectWithContext` on the samples bucket; returns
the error, if any. -/
def PutObject (e : Env) (key : String) (content : Bytes) (w : World) :
    Option String × World :=
  let w1 := w.log (.putObject key)
  match e.putObjectErr with
  | some msg => (some msg, w1)
  | none => (none, { w1 with blobs := upsert w1.blobs key content })

/-- The constant `sha256regex`, `^[a-f0-9]{64}$`, as the test
`regexp.MatchString` makes with it. -/
def sha256regex (s : String) : Bool :=
  decide (s.data.length = 64) &&
    s.data.all (fun c => ('a' ≤ c && c ≤ 'f') || ('0' ≤ c && c ≤ '9'))

/-- Modelled from the spec: `utils.IsStringInSlice` of `app/common/utils`, which
is not among the sources.  The spec has the handlers test whether a name is
"already in" a set. -/
def IsStringInSlice (a : String) : List String → Bool
  | [] => false
  | b :: t => if b = a then true else IsStringInSlice a t

/-- Modelled from the spec: `utils.RemoveStringFromSlice` of `app/common/utils`,
which is not among the sources.  The spec has it "remove from" a set, where
"removing an absent element is a no-op"; here it removes the first
occurrence. -/
def RemoveStringFromSlice : List String → String → List String
  | [], _ => []
  | v :: t, r => if v = r then t else v :: RemoveStringFromSlice t r

/-- The outcome of reading, validating and decoding a JSON request body, in the
order the handlers do it: `ioutil.ReadAll` fails, the body is empty, the schema
validation returns an error, the body is not valid (with the joined
descriptions), `json.Unmarshal` fails, or the decoded value. -/
inductive Body (α : Type) where
  | readError (msg : String)
  | empty
  | schemaError (msg : String)
  | invalid (msg : String)
  | unmarshalError (msg : String)
  | decoded (a : α)
deriving DecidableEq, Repr

/-! ## Package user -/

namespace user

/-- The method `User.Save`: upsert under the lower-cased username; a failure is
logged and not returned.  `failed` is the outcome of this call. -/
def User.Save (d : Deps) (failed : Bool) (u : User) (w : World) : World :=
  let w1 := w.log (.userUpsert (d.ToLower u.Username))
  if failed then w1
  else { w1 with users := upsert w1.users (d.ToLower u.Username) u }

/-- The function `GetByUsername`: `none` stands for a returned error (the
document is absent, or the call `failed`). -/
def GetByUsername (d : Deps) (failed : Bool) (username : String) (w : World) :
    Option User × World :=
  let w1 := w.log (.userGet (d.ToLower username))
  if failed then (none, w1) else (lookup w1.users (d.ToLower username), w1)

/-- The method `User.NewActivity`. -/
def User.NewActivity (e : Env) (activityType : String)
    (content : List (String × String)) : Activity :=
  { Timestamp := some e.activityNow, Type_ := activityType, Content := content }

/-- What `Actions` reads from its `echo.Context`: the name claim of the token,
the body (decoded: the value of its field `type`) and the path parameter
`username`. -/
structure ActionsRequest where
  username : String
  body : Body String
  param : String
deriving DecidableEq, Repr

/-- The handler `Actions` of `user/main.go`. -/
def Actions (d : Deps) (e : Env) (req : ActionsRequest) (w : World) :
    Reply × World :=
  -- Get user infos.
  match GetByUsername d e.getUserErr req.username w with
  | (none, w) => (⟨400, .verbose "Username does not exist"⟩, w)
  | (some currentUser, w) =>
  match req.body with
  | .readError msg => (⟨400, .text msg⟩, w)
  | .empty => (⟨400, .verbose "You have sent an empty json"⟩, w)
  | .schemaError msg => (⟨400, .text msg⟩, w)
  | .invalid msg => (⟨400, .verbose msg⟩, w)
  | .unmarshalError msg => (⟨500, .text msg⟩, w)
  | .decoded actionType =>
  -- get target user
  match GetByUsername d e.getTargetErr req.param w with
  | (none, w) => (⟨400, .verbose "Target user does not exist"⟩, w)
  | (some targetUser, w) =>
  if currentUser.Username = targetUser.Username then
    (⟨400, .verbose "Not allowed to follow yourself"⟩, w)
  else
  let w :=
    if actionType = "follow" then
      let (currentUser, w) :=
        if !IsStringInSlice targetUser.Username currentUser.Following then
          let currentUser := { currentUser with
            Following := currentUser.Following ++ [targetUser.Username],
            FollowingCount := currentUser.FollowingCount + 1 }
          -- add new activity
          let activity := User.NewActivity e "follow" [("user", targetUser.Username)]
          let currentUser := { currentUser with
            Activities := currentUser.Activities ++ [activity] }
          (currentUser, User.Save d e.userSaveErr currentUser w)
        else (currentUser, w)
      if !IsStringInSlice currentUser.Username targetUser.Followers then
        let targetUser := { targetUser with
          Followers := targetUser.Followers ++ [currentUser.Username],
          FollowersCount := targetUser.FollowersCount + 1 }
        User.Save d e.targetSaveErr targetUser w
      else w
    else if actionType = "unfollow" then
      let currentUser :=
        if IsStringInSlice targetUser.Username currentUser.Following then
          { currentUser with
            Following := RemoveStringFromSlice currentUser.Following targetUser.Username,
            FollowingCount := currentUser.FollowingCount - 1 }
        else currentUser
      let targetUser :=
        if IsStringInSlice currentUser.Username targetUser.Followers then
          { targetUser with
            Followers := RemoveStringFromSlice targetUser.Followers currentUser.Username,
            FollowersCount := targetUser.FollowersCount - 1 }
        else targetUser
      let w := User.Save d e.userSaveErr currentUser w
      User.Save d e.targetSaveErr targetUser w
    else w
  (⟨200, .verbose "action success"⟩, w)

end user

/-! ## Package file (app/handler/file) -/

namespace file

/-- The method `File.Save`: upsert under the key `file.Sha256`; returns whether
the upsert failed. -/
def File.Save (e : Env) (file : File) (w : World) : Bool × World :=
  let w1 := w.log (.fileUpsert file.Sha256)
  if e.fileSaveErr then (true, w1)
  else (false, { w1 with files := upsert w1.files file.Sha256 file })

/-- The function `GetFileBySHA256`. -/
def GetFileBySHA256 (e : Env) (sha256 : String) (w : World) :
    Except GetError File × World :=
  let w1 := w.log (.fileGet sha256)
  match e.getFileErr with
  | some msg => (.error (.other msg), w1)
  | none =>
    match lookup w1.files sha256 with
    | none => (.error .notFound, w1)
    | some f => (.ok f, w1)

/-- The method `File.getByCommentID`. -/
def File.getByCommentID (file : File) (commentID : String) : Comment :=
  match file.Comments.find? (fun com => decide (com.ID = commentID)) with
  | some com => com
  | none => Comment.zero

/-- A `multipart.FileHeader` with the content its `Open` gives access to. -/
structure FileHeader where
  Filename : String
  Size : Int
  content : Bytes
deriving DecidableEq, Repr

/-- What `PostFiles` reads from its `echo.Context`: the name claim of the
token, the form file (absent when `c.FormFile` fails) and the value of the
header `X-Geoip-Country`. -/
structure PostFilesRequest where
  username : String
  formFile : Option FileHeader
  country : String
deriving DecidableEq, Repr

/-- The handler `PostFiles`. -/
def PostFiles (d : Deps) (e : Env) (req : PostFilesRequest) (w : World) :
    Reply × World :=
  -- Get user infos.
  match user.GetByUsername d e.getUserErr req.username w with
  | (none, w) => (⟨400, .verbose "Username does not exists"⟩, w)
  | (some usr, w) =>
  -- Source
  match req.formFile with
  | none => (⟨400, .response ⟨"", "Missing file",
      "Did you send the file via the form request ?", ""⟩⟩, w)
  | some fileHeader =>
  -- Check file size
  if fileHeader.Size > d.MaxFileSize then
    (⟨413, .response ⟨"", "File too large", "The maximum allowed is 64MB",
      fileHeader.Filename⟩⟩, w)
  else
  -- Open the file
  let w := w.log (.fileOpen fileHeader.Filename)
  if e.openErr then
    (⟨500, .response ⟨"", "Failed to open the file", "Internal error",
      fileHeader.Filename⟩⟩, w)
  else
  let size := fileHeader.Size
  -- Read the content
  let w := w.log (.fileRead fileHeader.Filename)
  match e.readErr with
  | some msg => (⟨500, .response ⟨"", "Failed to read the file content", msg,
      fileHeader.Filename⟩⟩, w)
  | none =>
  let fileContents := fileHeader.content
  let sha256 := d.GetSha256 fileContents
  -- Have we seen this file before
  match GetFileBySHA256 e sha256 w with
  | (.error (.other msg), w) =>
    (⟨500, .response ⟨"", "Something unexpected happened", msg,
      fileHeader.Filename⟩⟩, w)
  | (.error .notFound, w) =>
    -- Upload the sample to the object storage.
    match PutObject e sha256 fileContents w with
    | (some msg, w) =>
      (⟨500, .response ⟨sha256, "PutObject failed", msg, fileHeader.Filename⟩⟩, w)
    | (none, w) =>
    -- Save to DB
    let now := e.now
    let newFile : File :=
      { File.zero with
        Sha256 := sha256, FirstSubmission := some now, LastSubmission := some now,
        Size := size, Status := queued }
    -- Create new submission
    let s : submission :=
      { Date := some now, Filename := fileHeader.Filename, Source := "web",
        Country := req.country }
    let newFile := { newFile with Submissions := newFile.Submissions ++ [s] }
    let w := (File.Save e newFile w).2
    let usr := { usr with
      Submissions := usr.Submissions ++ [⟨some now, sha256⟩] }
    let w := user.User.Save d e.userSaveErr usr w
    -- Push it to NSQ
    match Publish e "scan" sha256 w with
    | (some msg, w) =>
      (⟨500, .response ⟨sha256, "Publish failed", msg, fileHeader.Filename⟩⟩, w)
    | (none, w) =>
    -- add new activity
    let activity := user.User.NewActivity e "submit" [("sha256", sha256)]
    let usr := { usr with Activities := usr.Activities ++ [activity] }
    let w := user.User.Save d e.userSave2Err usr w
    -- All went fine
    (⟨201, .response ⟨sha256, "ok", "File queued successfully for analysis",
      fileHeader.Filename⟩⟩, w)
  | (.ok fileDocument, w) =>
    -- We have already seen this file, create new submission
    let now := e.now
    let s : submission :=
      { Date := some now, Filename := fileHeader.Filename, Source := "api",
        Country := req.country }
    let fileDocument := { fileDocument with
      Submissions := fileDocument.Submissions ++ [s], LastSubmission := some now }
    let w := (File.Save e fileDocument w).2
    (⟨200, .file fileDocument⟩, w)

/-- What `Actions` reads from its `echo.Context`: the path parameter `sha256`,
the body (decoded: the value of its field `type`) and the name claim of the
token. -/
structure ActionsRequest where
  sha256 : String
  body : Body String
  username : String
deriving DecidableEq, Repr

/-- The handler `Actions` of `file/main.go`. -/
def Actions (d : Deps) (e : Env) (req : ActionsRequest) (w : World) :
    Reply × World :=
  -- get sha256 param.
  let sha256 := d.ToLower req.sha256
  if !sha256regex sha256 then
    (⟨400, .response ⟨sha256, "Invalid sha256", "File hash is not a sha256 hash", ""⟩⟩, w)
  else
  match req.body with
  | .readError msg => (⟨400, .response ⟨sha256, "Failed to read the file", msg, ""⟩⟩, w)
  | .empty => (⟨400, .verbose "You have sent an empty json"⟩, w)
  | .schemaError msg =>
    (⟨400, .response ⟨sha256, "Failed to validate file schema", msg, ""⟩⟩, w)
  | .invalid msg =>
    (⟨400, .response ⟨sha256, "Failed to validate file schema", msg, ""⟩⟩, w)
  | .unmarshalError msg => (⟨500, .text msg⟩, w)
  | .decoded actionType =>
  match GetFileBySHA256 e sha256 w with
  | (.error .notFound, w) =>
    (⟨404, .response ⟨sha256, GetError.notFound.Error,
      "File was not found in our database", ""⟩⟩, w)
  | (.error (.other msg), w) =>
    (⟨500, .response ⟨sha256, "Something unexpected happened", msg, ""⟩⟩, w)
  | (.ok _, w) =>
  if actionType = "rescan" then
    -- Push it to NSQ
    match Publish e "scan" sha256 w with
    | (some _, w) => (⟨500, .response ⟨sha256, "Publish failed", "Internal error", ""⟩⟩, w)
    | (none, w) =>
      (⟨200, .response ⟨sha256, "File rescan successful",
        "Type of action: " ++ actionType, ""⟩⟩, w)
  else if actionType = "download" then
    let w := w.log (.getObject sha256)
    match e.getObjectErr with
    | some msg => (⟨500, .text msg⟩, w)
    | none =>
    match e.statErr with
    | some msg => (⟨404, .text msg⟩, w)
    | none =>
    match e.zipErr with
    | some msg => (⟨400, .text msg⟩, w)
    | none => (⟨200, .zipped e.zipPath⟩, w)
  else if actionType = "like" then
    -- Get user infos.
    match user.GetByUsername d e.getUserErr req.username w with
    | (none, w) => (⟨400, .verbose "Username does not exist"⟩, w)
    | (some usr, w) =>
    let w :=
      if !IsStringInSlice sha256 usr.Likes then
        let usr := { usr with Likes := usr.Likes ++ [sha256] }
        -- add new activity
        let activity := user.User.NewActivity e "like" [("sha256", sha256)]
        let usr := { usr with Activities := usr.Activities ++ [activity] }
        user.User.Save d e.userSaveErr usr w
      else w
    (⟨200, .verbose "Sample has been liked successefuly"⟩, w)
  else if actionType = "unlike" then
    -- Get user infos.
    match user.GetByUsername d e.getUserErr req.username w with
    | (none, w) => (⟨400, .verbose "Username does not exist"⟩, w)
    | (some usr, w) =>
    let w :=
      if IsStringInSlice sha256 usr.Likes then
        let usr := { usr with Likes := RemoveStringFromSlice usr.Likes sha256 }
        user.User.Save d e.userSaveErr usr w
      else w
    (⟨200, .verbose "Sample has been unliked successefuly"⟩, w)
  else
    (⟨500, .response ⟨sha256, "Unknown action", "Type of action: " ++ actionType, ""⟩⟩, w)

/-- What `PostComment` reads from its `echo.Context`: the path parameter
`sha256`, the body (decoded: the `Comment` that `json.Unmarshal` fills) and the
name claim of the token. -/
structure PostCommentRequest where
  sha256 : String
  body : Body Comment
  username : String
deriving DecidableEq, Repr

/-- The handler `PostComment`. -/
def PostComment (d : Deps) (e : Env) (req : PostCommentRequest) (w : World) :
    Reply × World :=
  -- get path param
  let sha256 := d.ToLower req.sha256
  match req.body with
  | .readError msg => (⟨400, .text msg⟩, w)
  | .empty => (⟨400, .text "EOF"⟩, w)
  | .schemaError msg => (⟨400, .text msg⟩, w)
  | .invalid msg => (⟨400, .verbose msg⟩, w)
  | body =>
  if !sha256regex sha256 then
    (⟨400, .response ⟨sha256, "Invalid sha265",
      "File hash is not a sha256 hash" ++ sha256, ""⟩⟩, w)
  else
  -- Get the document.
  match GetFileBySHA256 e sha256 w with
  | (.error err, w) => (⟨400, .text err.Error⟩, w)
  | (.ok file, w) =>
  -- Get the user
  match user.GetByUsername d e.getUserErr req.username w with
  | (none, w) => (⟨400, .verbose "Username does not exist"⟩, w)
  | (some usr, w) =>
  -- Create a new comment to store in file document.
  match body with
  | .decoded com =>
    -- Overwrite the content for now
    let now := e.now
    let commentID := e.guid
    let com := { com with Timestamp := some now, Username := req.username, ID := commentID }
    let file := { file with Comments := file.Comments ++ [com] }
    let w := (File.Save e file w).2
    -- Create the same comment to store in user document.
    let userCom : user.Comment :=
      { Timestamp := some now, ID := commentID, Body := com.Body, Sha256 := sha256 }
    let usr := { usr with Comments := usr.Comments ++ [userCom] }
    let w := user.User.Save d e.userSaveErr usr w
    -- add new activity
    let activity := user.User.NewActivity e "comment"
      [("sha256", sha256), ("body", com.Body)]
    let usr := { usr with Activities := usr.Activities ++ [activity] }
    let w := user.User.Save d e.userSave2Err usr w
    (⟨200, .comment com⟩, w)
  | .unmarshalError msg => (⟨500, .text msg⟩, w)
  | _ => (⟨500, .text ""⟩, w)

/-- The list without its first comment of the given ID, when there is one: the
effect of `append(file.Comments[:i], file.Comments[i+1:]...)` at the first
index `i` whose comment has that ID. -/
def removeFirst (commentID : String) : List Comment → Option (List Comment)
  | [] => none
  | com :: t =>
    if com.ID = commentID then some t
    else (removeFirst commentID t).map (fun r => com :: r)

/-- What `DeleteComment` reads from its `echo.Context`: the path parameters
`sha256` and `id` and the name claim of the token. -/
structure DeleteCommentRequest where
  sha256 : String
  id : String
  username : String
deriving DecidableEq, Repr

/-- The handler `DeleteComment`. -/
def DeleteComment (d : Deps) (e : Env) (req : DeleteCommentRequest) (w : World) :
    Reply × World :=
  -- Get the file doc.
  let sha256 := d.ToLower req.sha256
  match GetFileBySHA256 e sha256 w with
  | (.error err, w) => (⟨400, .text err.Error⟩, w)
  | (.ok file, w) =>
  -- Get the user
  let currentUsername := req.username
  -- Get comment
  let commentID := req.id
  let com := file.getByCommentID commentID
  if Comment.zero = com then
    (⟨404, .verbose "Comment not found"⟩, w)
  else
  -- Check if user own comment
  if com.Username ≠ currentUsername then
    (⟨401, .verbose "Not allowed to delete someone else comment"⟩, w)
  else
  -- Delete comment.
  let w :=
    match removeFirst commentID file.Comments with
    | some rest => (File.Save e { file with Comments := rest } w).2
    | none => w
  (⟨200, .verbose "Comment was deleted"⟩, w)

/-- What `ScanFileFromObjectStorage` reads from its `echo.Context`: the path
parameter `sha256` and the value of the header `X-Geoip-Country`. -/
structure ScanRequest where
  sha256 : String
  country : String
deriving DecidableEq, Repr

/-- The handler `ScanFileFromObjectStorage`.  The reply is `none` when the
handler panics: on a hash that does not match, the handler calls `err.Error()`
on the error of `regexp.MatchString`, which is nil for the constant pattern. -/
def ScanFileFromObjectStorage (d : Deps) (e : Env) (req : ScanRequest) (w : World) :
    Option Reply × World :=
  let sha256 := d.ToLower req.sha256
  if !sha256regex sha256 then (none, w)
  else
  -- Save to DB
  let now := e.now
  let newFile : File :=
    { File.zero with
      Sha256 := sha256, FirstSubmission := some now, LastSubmission := some now,
      Status := queued }
  -- Create new submission
  let s : submission :=
    { Date := some now, Filename := sha256, Source := "api", Country := req.country }
  let newFile := { newFile with Submissions := newFile.Submissions ++ [s] }
  let w := (File.Save e newFile w).2
  -- Push it to NSQ
  match Publish e "scan" sha256 w with
  | (some msg, w) =>
    (some ⟨500, .response ⟨sha256, "Failed to publish to NSQ", msg, ""⟩⟩, w)
  | (none, w) =>
    (some ⟨201, .response ⟨sha256, "ok", "File queued successfully for analysis", ""⟩⟩, w)

end file

/-! ## Package file (internal/file/api.go) -/

namespace resource

/-- The errors of the package `internal/errors`, which is not among the
sources, by constructor name and message. -/
inductive APIError where
  | BadRequest (msg : String)
  | TooLargeEntity (msg : String)
  | InternalServerError (msg : String)
  | Forbidden (msg : String)
  | NotFound (msg : String)
  | fromService (code : Nat) (msg : String)
deriving DecidableEq, Repr

/-- Modelled from the spec: the HTTP status of an error of `internal/errors`.
The spec lists 400 (validation), 403 (ownership), 404 (unknown hash), 413
(oversize upload) and 500 (storage or queue failure). -/
def APIError.status : APIError → Nat
  | .BadRequest _ => 400
  | .TooLargeEntity _ => 413
  | .InternalServerError _ => 500
  | .Forbidden _ => 403
  | .NotFound _ => 404
  | .fromService code _ => code

/-- The type `CreateFileRequest`. -/
structure CreateFileRequest where
  src : Bytes
  filename : String
  geoip : String
deriving DecidableEq, Repr

/-- The method `Create` of the interface `Service`, whose implementation is
not among the sources: any function of the request and the world, returning
the created document (rendered) or an error. -/
structure Service where
  Create : CreateFileRequest → World → Except APIError String × World

/-- What `create` reads from its `echo.Context`: the form file (absent when
`c.FormFile` fails) and the value of the header `X-Geoip-Country`. -/
structure CreateRequest where
  formFile : Option file.FileHeader
  geoip : String
deriving DecidableEq, Repr

/-- The handler `resource.create`. -/
def create (r : Service) (e : Env) (req : CreateRequest) (w : World) :
    Except APIError (Nat × String) × World :=
  match req.formFile with
  | none => (.error (.BadRequest "missing file in form request"), w)
  | some f =>
  if f.Size > 60000000 then (.error (.TooLargeEntity ""), w)
  else
  let w := w.log (.fileOpen f.Filename)
  if e.openErr then (.error (.InternalServerError ""), w)
  else
  let input : CreateFileRequest :=
    { src := f.content, filename := f.Filename, geoip := req.geoip }
  match r.Create input (w.log (.serviceCall "Create")) with
  | (.error err, w) => (.error err, w)
  | (.ok file, w) => (.ok (201, file), w)

end resource

/-! ## Accounts: registration (app/handler/user) -/

/-- What the outside decides during one call of an account handler, beyond
`Env`: whether the N1QL query of `CheckEmailExist` fails, the hash
`bcrypt.GenerateFromPassword` returns (`none`: an error) and the string
`token.SignedString` returns (`none`: an error). -/
structure AccountEnv extends Env where
  emailQueryErr : Bool
  bcryptHash : Option String
  signedToken : Option String
deriving DecidableEq, Repr

/-- An account environment in which every call succeeds. -/
def AccountEnv.ok (now : Time) (hash token : String) : AccountEnv :=
  { Env.ok now now "" with
    emailQueryErr := false, bcryptHash := some hash, signedToken := some token }

namespace user

/-- The function `HashAndSalt`: the hash as a string; an error of bcrypt is
logged and the empty hash is returned.  The hash is salted: the environment
decides it, not the password alone. -/
def HashAndSalt (e : AccountEnv) (_pwd : String) : String :=
  match e.bcryptHash with
  | some hash => hash
  | none => ""

/-- The function `CheckEmailExist`, as its callers use it (they drop the
error): whether the query succeeds and counts a user whose `email` is the
lower-cased address. -/
def CheckEmailExist (d : Deps) (e : AccountEnv) (email : String) (w : World) : Bool :=
  if e.emailQueryErr then false
  else w.users.any (fun p => decide (p.2.Email = d.ToLower email))

/-- What `PostUsers` reads from its `echo.Context`: the body (decoded: the
`User` that `json.Unmarshal` fills). -/
structure PostUsersRequest where
  body : Body User
deriving DecidableEq, Repr

/-- The handler `PostUsers`.  The query of `CheckEmailExist` and the goroutine
`email.Send`, started before the reply, leave no entry in the trace. -/
def PostUsers (d : Deps) (e : AccountEnv) (req : PostUsersRequest) (w : World) :
    Reply × World :=
  match req.body with
  | .readError msg => (⟨400, .text msg⟩, w)
  | .empty => (⟨400, .verbose "You have sent an empty json"⟩, w)
  | .schemaError msg => (⟨400, .text msg⟩, w)
  | .invalid msg => (⟨400, .verbose msg⟩, w)
  | .unmarshalError msg => (⟨500, .text msg⟩, w)
  | .decoded newUser =>
  -- check if user already exist in DB.
  let (u, w) := GetByUsername d e.getUserErr newUser.Username w
  if (match u with
      | some u => decide (u.Username ≠ "")
      | none => false) then
    (⟨400, .verbose "Username already exists !"⟩, w)
  else
  -- check if email already exists in DB.
  if CheckEmailExist d e newUser.Email w then
    (⟨400, .verbose "Email already exists !"⟩, w)
  else
  -- Update some details
  let t := e.now
  let newUser := { newUser with
    Password := HashAndSalt e newUser.Password, Name := "", MemberSince := some t,
    Confirmed := false,
    Bio := "", URL := "", Location := "", LastSeen := some t, Following := [],
    Followers := [], Likes := [], Comments := [], Submissions := [], Activities := [],
    HasAvatar := false, Admin := false }
  -- Creates the new user and save it to DB.
  let newUser := { newUser with Email := d.ToLower newUser.Email }
  let w := User.Save d e.userSaveErr newUser w
  -- Send confirmation email
  match e.signedToken with
  | none => (⟨500, .verbose "Internal server error !"⟩, w)
  | some _ => (⟨201, .verbose "ok"⟩, w)

/-- The errors of the function `Confirm`: `ErrUserAlreadyConfirmed`, or the
error of `GetByUsername`. -/
inductive ConfirmError where
  | ErrUserAlreadyConfirmed
  | lookup
deriving DecidableEq, Repr

/-- The method `Error` of `ErrUserAlreadyConfirmed`. -/
def ErrUserAlreadyConfirmedText : String := "Account already confirmed"

/-- The function `Confirm` of `user/main.go`. -/
def Confirm (d : Deps) (e : AccountEnv) (username : String) (w : World) :
    Option ConfirmError × World :=
  match GetByUsername d e.getUserErr username w with
  | (none, w) => (some .lookup, w)
  | (some user, w) =>
  if user.Confirmed then (some .ErrUserAlreadyConfirmed, w)
  else
  let user := { user with Confirmed := true }
  (none, User.Save d e.userSaveErr user w)

/-- The method `User.UpdatePassword`. -/
def User.UpdatePassword (d : Deps) (e : AccountEnv) (u : User) (newPassword : String)
    (w : World) : World :=
  let u := { u with Password := HashAndSalt e newPassword }
  User.Save d e.userSaveErr u w

/-- The handler `Actions` from the point where both documents have been read
and found to be of different users: the switch on the action type, with its
saves, and the reply. -/
def ActionsAfterReads (d : Deps) (e : Env) (actionType : String)
    (currentUser targetUser : User) (w : World) : Reply × World :=
  let w :=
    if actionType = "follow" then
      let (currentUser, w) :=
        if !IsStringInSlice targetUser.Username currentUser.Following then
          let currentUser := { currentUser with
            Following := currentUser.Following ++ [targetUser.Username],
            FollowingCount := currentUser.FollowingCount + 1 }
          let activity := User.NewActivity e "follow" [("user", targetUser.Username)]
          let currentUser := { currentUser with
            Activities := currentUser.Activities ++ [activity] }
          (currentUser, User.Save d e.userSaveErr currentUser w)
        else (currentUser, w)
      if !IsStringInSlice currentUser.Username targetUser.Followers then
        let targetUser := { targetUser with
          Followers := targetUser.Followers ++ [currentUser.Username],
          FollowersCount := targetUser.FollowersCount + 1 }
        User.Save d e.targetSaveErr targetUser w
      else w
    else if actionType = "unfollow" then
      let currentUser :=
        if IsStringInSlice targetUser.Username currentUser.Following then
          { currentUser with
            Following := RemoveStringFromSlice currentUser.Following targetUser.Username,
            FollowingCount := currentUser.FollowingCount - 1 }
        else currentUser
      let targetUser :=
        if IsStringInSlice currentUser.Username targetUser.Followers then
          { targetUser with
            Followers := RemoveStringFromSlice targetUser.Followers currentUser.Username,
            FollowersCount := targetUser.FollowersCount - 1 }
        else targetUser
      let w := User.Save d e.userSaveErr currentUser w
      User.Save d e.targetSaveErr targetUser w
    else w
  (⟨200, .verbose "action success"⟩, w)

end user


/-! ## Package auth (app/handler/auth) -/

/-- What the auth handlers take from outside the sources, beyond `Deps`:
`bcrypt.CompareHashAndPassword` (`true`: it returns no error), the setting
`ui.address` and the constant `app.Domain`. -/
structure AuthDeps extends Deps where
  CompareHashAndPassword : String → String → Bool
  uiAddress : String
  Domain : String

namespace auth

/-- The function `comparePasswords`. -/
def comparePasswords (d : AuthDeps) (hashedPwd plainPwd : String) : Bool :=
  d.CompareHashAndPassword hashedPwd plainPwd

/-- The function `createJwtToken`: the string `token.SignedString` returns, or
`none` for its error. -/
def createJwtToken (e : AccountEnv) (_u : user.User) : Option String :=
  e.signedToken

/-- An `http.Cookie`, without its fields `Expires` and `SameSite`. -/
structure Cookie where
  Name : String
  Value : String
  Path : String
  Domain : String
  HttpOnly : Bool
  Secure : Bool
deriving DecidableEq, Repr

/-- The function `createJwtCookie`. -/
def createJwtCookie (d : AuthDeps) (token : String) : Cookie :=
  { Name := "JWTCookie", Value := token, Path := "/", Domain := d.Domain,
    HttpOnly := true, Secure := true }

/-- What an auth handler answers with: `c.JSON` of a status and a payload,
`c.JSON` of the login map with its fields `verbose_msg` and `token`, or
`c.Redirect`. -/
inductive Answer where
  | json (code : Nat) (body : Payload)
  | loggedIn (code : Nat) (verbose_msg token : String)
  | redirect (code : Nat) (url : String)
deriving DecidableEq, Repr

/-- The status code of an answer. -/
def Answer.code : Answer → Nat
  | .json code _ => code
  | .loggedIn code _ _ => code
  | .redirect code _ => code

/-- The token an answer carries, if any. -/
def Answer.token : Answer → Option String
  | .loggedIn _ _ token => some token
  | _ => none

/-- What `Login` leaves in its `echo.Context`: the answer and the cookie given
to `c.SetCookie`, if any. -/
structure LoginResult where
  answer : Answer
  cookie : Option Cookie
deriving DecidableEq, Repr

/-- What `Login` reads from its `echo.Context`: the body (decoded: its fields
`username` and `password`). -/
structure LoginRequest where
  body : Body (String × String)
deriving DecidableEq, Repr

/-- The handler `Login`. -/
def Login (d : AuthDeps) (e : AccountEnv) (req : LoginRequest) (w : World) :
    LoginResult × World :=
  match req.body with
  | .readError msg => (⟨.json 400 (.text msg), none⟩, w)
  | .empty => (⟨.json 400 (.verbose "You have sent an empty json"), none⟩, w)
  | .schemaError msg => (⟨.json 400 (.text msg), none⟩, w)
  | .invalid msg => (⟨.json 400 (.verbose msg), none⟩, w)
  | .unmarshalError msg => (⟨.json 500 (.text msg), none⟩, w)
  | .decoded (loginUsername, loginPassword) =>
  match user.GetByUsername d.toDeps e.getUserErr loginUsername w with
  | (none, w) => (⟨.json 404 (.verbose "Username does not exist !"), none⟩, w)
  | (some u, w) =>
  if !comparePasswords d u.Password loginPassword then
    (⟨.json 401 (.verbose "Username or password does not match !"), none⟩, w)
  else
  if !u.Confirmed then
    (⟨.json 401 (.verbose "Account not confirmed, please confirm your email !"), none⟩, w)
  else
  match createJwtToken e u with
  | none => (⟨.json 500 (.verbose "Internal server error !"), none⟩, w)
  | some token =>
  -- Create a cookie to place the jwt token
  let cookie := createJwtCookie d token
  -- Update last time we have seen the user
  let u := { u with LastSeen := some e.now }
  let w := user.User.Save d.toDeps e.userSaveErr u w
  (⟨.loggedIn 200 "You were logged in !" token, some cookie⟩, w)

/-- What `Confirm` reads from its `echo.Context`: the query parameter `token`
and the claims `Purpose` and `Username` of the parsed token. -/
structure ConfirmRequest where
  token : String
  Purpose : String
  Username : String
deriving DecidableEq, Repr

/-- The handler `Confirm` of `auth/main.go`. -/
def Confirm (d : AuthDeps) (e : AccountEnv) (req : ConfirmRequest) (w : World) :
    Answer × World :=
  if req.token = "" then
    (.json 404 (.verbose "You provided an empty token!"), w)
  else
  let tokenType := req.Purpose
  if tokenType ≠ "confirm-email" then
    (.json 400 (.verbose "You provided an invalid token type!"), w)
  else
  -- Confirm account
  match user.Confirm d.toDeps e req.Username w with
  | (some .ErrUserAlreadyConfirmed, w) =>
    (.json 400 (.verbose user.ErrUserAlreadyConfirmedText), w)
  | (some .lookup, w) => (.json 500 (.verbose "Internal server error !"), w)
  | (none, w) => (.redirect 308 d.uiAddress, w)

/-- What `NewPassword` reads from its `echo.Context`: the query parameter
`token`, the claims `Purpose` and `Username` of the parsed token and the body
(decoded: its field `password`). -/
structure NewPasswordRequest where
  token : String
  Purpose : String
  Username : String
  body : Body String
deriving DecidableEq, Repr

/-- The handler `NewPassword`. -/
def NewPassword (d : AuthDeps) (e : AccountEnv) (req : NewPasswordRequest) (w : World) :
    Answer × World :=
  if req.token = "" then
    (.json 404 (.verbose "You provided an empty token!"), w)
  else
  let tokenType := req.Purpose
  if tokenType ≠ "reset-password" then
    (.json 400 (.verbose "You provided an invalid token type!"), w)
  else
  match user.GetByUsername d.toDeps e.getUserErr req.Username w with
  | (none, w) => (.json 404 (.verbose "Username does not exist !"), w)
  | (some usr, w) =>
  match req.body with
  | .readError msg => (.json 400 (.text msg), w)
  | .empty => (.json 400 (.verbose "You have sent an empty json"), w)
  | .schemaError msg => (.json 400 (.text msg), w)
  | .invalid msg => (.json 400 (.verbose msg), w)
  | .unmarshalError msg => (.json 500 (.text msg), w)
  | .decoded newPassword =>
  let w := user.User.UpdatePassword d.toDeps e usr newPassword w
  (.json 200 (.verbose "ok"), w)

end auth

/-! ## Package email (app/email) -/

namespace email

/-- The variable `app.SMTPConfig`, by the fields `send` reads. -/
structure SMTPConfig where
  Server : String
  Port : Int
  SMTPUser : String
  SMTPPassword : String
  SenderIdentity : String
  SenderEmail : String
deriving DecidableEq, Repr

/-- The type `sendOptions`. -/
structure sendOptions where
  To : String
  Subject : String
deriving DecidableEq, Repr

/-- What the outside decides during one call of `Send`: the error, if any, of
`h.GenerateHTML`, `os.MkdirAll`, the two calls of `ioutil.WriteFile`,
`h.GeneratePlainText`, the two calls of `ioutil.ReadFile` and
`d.DialAndSend`. -/
structure MailEnv where
  generateHTMLErr : Option String
  mkdirErr : Option String
  writeHTMLErr : Option String
  generatePlainTextErr : Option String
  writeTextErr : Option String
  readHTMLErr : Option String
  readTextErr : Option String
  dialAndSendErr : Option String
deriving DecidableEq, Repr

/-- A mail environment in which every call succeeds. -/
def MailEnv.ok : MailEnv :=
  { generateHTMLErr := none, mkdirErr := none, writeHTMLErr := none,
    generatePlainTextErr := none, writeTextErr := none, readHTMLErr := none,
    readTextErr := none, dialAndSendErr := none }

/-- How a call ends: it returns, or a panic leaves it, with the message of the
value given to `panic`. -/
inductive Outcome where
  | returned
  | panicked (msg : String)
deriving DecidableEq, Repr

/-- The two implementations of the interface `template`. -/
inductive template where
  | confirm
  | reset
deriving DecidableEq, Repr

/-- The function `send`; returns the error, if any. -/
def send (smtpConfig : SMTPConfig) (e : MailEnv) (options : sendOptions) :
    Option String :=
  if smtpConfig.Server = "" then some "SMTP server config is empty"
  else if smtpConfig.Port = 0 then some "SMTP port config is empty"
  else if smtpConfig.SMTPUser = "" then some "SMTP user is empty"
  else if smtpConfig.SenderIdentity = "" then some "SMTP sender identity is empty"
  else if smtpConfig.SenderEmail = "" then some "SMTP sender email is empty"
  else if options.To = "" then some "no receiver emails configured"
  else e.dialAndSendErr

/-- The function `generateEmails`. -/
def generateEmails (e : MailEnv) : Outcome :=
  -- Generate the HTML template and save it
  match e.generateHTMLErr with
  | some msg => .panicked msg
  | none =>
  match e.mkdirErr with
  | some msg => .panicked msg
  | none =>
  match e.writeHTMLErr with
  | some msg => .panicked msg
  | none =>
  -- Generate the plaintext template and save it
  match e.generatePlainTextErr with
  | some msg => .panicked msg
  | none =>
  match e.writeTextErr with
  | some msg => .panicked msg
  | none => .returned

/-- The function `Send`.  With a template name other than "confirm" and
"reset" the variable `t` stays nil, and the call `t.Email` panics with the
runtime error of a nil dereference. -/
def Send (smtpConfig : SMTPConfig) (e : MailEnv)
    (_username _link recipient templateToUse : String) : Outcome :=
  let options : sendOptions := { To := recipient, Subject := "" }
  let t : Option template := none
  let (t, options) :=
    if templateToUse = "confirm" then
      (some template.confirm, { options with Subject := "Saferwall - Confirm Account" })
    else (t, options)
  let (t, options) :=
    if templateToUse = "reset" then
      (some template.reset, { options with Subject := "Saferwall - Reset Password" })
    else (t, options)
  match t with
  | none => .panicked "runtime error: invalid memory address or nil pointer dereference"
  | some _ =>
  -- Generate emails
  match generateEmails e with
  | .panicked msg => .panicked msg
  | .returned =>
  match e.readHTMLErr with
  | some msg => .panicked msg
  | none =>
  match e.readTextErr with
  | some msg => .panicked msg
  | none =>
  match send smtpConfig e options with
  | some msg => .panicked msg
  | none => .returned

end email

/-! ## Package server (internal/server) -/

namespace server

/-- The constant `errEmptyBody`. -/
def errEmptyBody : String := "You have sent an empty body."

/-- The errors the underlying `echo.Binder` returns:
`echo.ErrUnsupportedMediaType`, or any other error, with its message. -/
inductive BinderError where
  | ErrUnsupportedMediaType
  | other (msg : String)
deriving DecidableEq, Repr

/-- The errors `CustomBinder.Bind` returns: one made by `errors.BadRequest`,
the error of the underlying binder, or the error of `c.Validate`. -/
inductive BindError where
  | BadRequest (msg : String)
  | binder (err : BinderError)
  | validation (msg : String)
deriving DecidableEq, Repr

/-- The calls `CustomBinder.Bind` makes on its target. -/
inductive BindCall where
  | bind
  | validate
deriving DecidableEq, Repr

/-- What `CustomBinder.Bind` meets in one call: the `ContentLength` of the
request, what the underlying binder returns for the target and what
`c.Validate` returns for it. -/
structure BindRequest where
  ContentLength : Int
  bindErr : Option BinderError
  validateErr : Option String
deriving DecidableEq, Repr

/-- The method `CustomBinder.Bind`: the error it returns, if any, and the calls
it made, in order. -/
def CustomBinder.Bind (req : BindRequest) : Option BindError × List BindCall :=
  if req.ContentLength = 0 then (some (.BadRequest errEmptyBody), [])
  else
  match req.bindErr with
  | some (.other msg) => (some (.binder (.other msg)), [.bind])
  | _ => (req.validateErr.map BindError.validation, [.bind, .validate])

end server

/-! ## Package file (internal/file/api.go): the admin handlers -/

namespace entity

/-- The type `entity.User` of `internal/entity`, which is not among the
sources, by what the handlers ask of it: the result of its method `IsAdmin`. -/
structure User where
  IsAdmin : Bool
deriving DecidableEq, Repr

end entity

namespace resource

/-- The methods `Update`, `Delete`, `Count` and `Query` of the interface
`Service`, next to `Create`: any functions of their arguments and the world.
Documents and the `UpdateFileRequest` are given rendered. -/
structure AdminService extends Service where
  Update : String → String → World → Except APIError String × World
  Delete : String → World → Except APIError String × World
  Count : World → Except APIError Int × World
  Query : Int → Int → World → Except APIError (List String) × World

/-- What the admin handlers read from their `echo.Context`: the value stored
under `entity.UserKey` when it is an `entity.User`, the path parameter
`sha256`, the input `c.Bind` fills (`none`: it fails) and the offset and limit
`pagination.NewFromRequest` derives from the request and a count. -/
structure AdminRequest where
  user : Option entity.User
  sha256 : String
  input : Option String
  pages : Int → Int × Int

/-- The handler `resource.update`. -/
def update (r : AdminService) (req : AdminRequest) (w : World) :
    Except APIError (Nat × String) × World :=
  let isAdmin :=
    match req.user with
    | some user => user.IsAdmin
    | none => false
  if !isAdmin then (.error (.Forbidden ""), w)
  else
  match req.input with
  | none => (.error (.BadRequest ""), w)
  | some input =>
  match r.Update req.sha256 input (w.log (.serviceCall "Update")) with
  | (.error err, w) => (.error err, w)
  | (.ok file, w) => (.ok (200, file), w)

/-- The handler `resource.patch`; `none` is its `nil`. -/
def patch (_r : AdminService) (req : AdminRequest) (w : World) :
    Option APIError × World :=
  let isAdmin :=
    match req.user with
    | some user => user.IsAdmin
    | none => false
  if !isAdmin then (some (.Forbidden ""), w)
  else (none, w)

/-- The handler `resource.delete`. -/
def delete (r : AdminService) (req : AdminRequest) (w : World) :
    Except APIError (Nat × String) × World :=
  let isAdmin :=
    match req.user with
    | some user => user.IsAdmin
    | none => false
  if !isAdmin then (.error (.Forbidden ""), w)
  else
  match r.Delete req.sha256 (w.log (.serviceCall "Delete")) with
  | (.error err, w) => (.error err, w)
  | (.ok file, w) => (.ok (200, file), w)

/-- The handler `resource.getFiles`; the answer is the page of items. -/
def getFiles (r : AdminService) (req : AdminRequest) (w : World) :
    Except APIError (Nat × List String) × World :=
  let isAdmin :=
    match req.user with
    | some user => user.IsAdmin
    | none => false
  if !isAdmin then (.error (.Forbidden ""), w)
  else
  match r.Count (w.log (.serviceCall "Count")) with
  | (.error err, w) => (.error err, w)
  | (.ok count, w) =>
  let pages := req.pages count
  match r.Query pages.1 pages.2 (w.log (.serviceCall "Query")) with
  | (.error err, w) => (.error err, w)
  | (.ok files, w) => (.ok (200, files), w)

end resource
/-! ## Specification predicates and measures -/

/-- The result of `GetFileBySHA256`, apart from the world: its first
component. -/
def fileResult (e : Env) (fs : List (String × file.File)) (sha256 : String) :
    Except GetError file.File :=
  match e.getFileErr with
  | some msg => .error (.other msg)
  | none =>
    match lookup fs sha256 with
    | none => .error .notFound
    | some f => .ok f

/-- Number of blob uploads in a trace. -/
def blobWrites (t : List Effect) : Nat :=
  (t.filter (fun x => match x with | .putObject _ => true | _ => false)).length

/-- One handler call changes the files collection by at most one upsert, which
either rewrites an existing record, keeping its status and extending its
submissions, or creates a record with status `queued`. -/
def FileWrite (fs fs2 : List (String × file.File)) : Prop :=
  fs2 = fs ∨ ∃ k v, fs2 = upsert fs k v ∧
    ((∃ r, lookup fs k = some r ∧ v.Status = r.Status ∧ r.Submissions <+: v.Submissions) ∨
      (lookup fs k = none ∧ v.Status = file.queued))

/-- Every record of `fs` is still there in `fs2` with the status it had, and
every record of `fs2` under a key that held none in `fs` has status `queued`. -/
def StatusKept (fs fs2 : List (String × file.File)) : Prop :=
  (∀ h r, lookup fs h = some r → ∃ r2, lookup fs2 h = some r2 ∧ r2.Status = r.Status) ∧
    (∀ h r2, lookup fs h = none → lookup fs2 h = some r2 → r2.Status = file.queued)

/-- One follow or unfollow request between two users: who acts (`forward`: the
first user on the second), the action type and the environment of the call. -/
structure FollowStep where
  forward : Bool
  actionType : String
  env : Env
deriving DecidableEq, Repr

/-- The request of a step between the users named `a` and `b`. -/
def FollowStep.request (a b : String) (s : FollowStep) : user.ActionsRequest :=
  if s.forward then ⟨a, .decoded s.actionType, b⟩ else ⟨b, .decoded s.actionType, a⟩

/-- The step is a follow or an unfollow whose reads and writes all succeed. -/
def FollowStep.Succeeds (s : FollowStep) : Prop :=
  (s.actionType = "follow" ∨ s.actionType = "unfollow") ∧
    s.env.getUserErr = false ∧ s.env.getTargetErr = false ∧
    s.env.userSaveErr = false ∧ s.env.targetSaveErr = false

/-- The world after a sequence of steps, each a call of `user.Actions`. -/
def runSteps (d : Deps) (a b : String) : List FollowStep → World → World
  | [], w => w
  | s :: t, w => runSteps d a b t (user.Actions d s.env (s.request a b) w).2

/-- Either `x` does not follow `y` on both records, or it does on both, once,
with the counters in step. -/
def Linked (x y : user.User) : Prop :=
  (x.Following = [] ∧ x.FollowingCount = 0 ∧ y.Followers = [] ∧ y.FollowersCount = 0) ∨
    (x.Following = [y.Username] ∧ x.FollowingCount = 1 ∧
      y.Followers = [x.Username] ∧ y.FollowersCount = 1)

/-- The users named `a` and `b` are stored under their lower-cased names and
are `Linked` in both directions. -/
def PairInv (d : Deps) (a b : String) (w : World) : Prop :=
  ∃ x y, lookup w.users (d.ToLower a) = some x ∧ lookup w.users (d.ToLower b) = some y ∧
    x.Username = a ∧ y.Username = b ∧ Linked x y ∧ Linked y x

/-! ## Sample instances -/

/-- A lower-casing function on the ASCII letters. -/
def asciiLower (s : String) : String := String.mk (s.data.map Char.toLower)

/-- A toy digest: one letter per byte. -/
def toyDigest (b : Bytes) : String :=
  String.mk (b.map (fun x => Char.ofNat (97 + x.val % 6)))

/-- Sample dependencies, with the 64MB limit the handler announces. -/
def sampleDeps : Deps :=
  { ToLower := asciiLower, GetSha256 := toyDigest, MaxFileSize := 67108864 }

/-- A registered user with nothing but a name. -/
def sampleUser (name : String) : user.User := { user.User.zero with Username := name }

/-- A world that holds the user alice and nothing else. -/
def aliceWorld : World :=
  { files := [], users := [("alice", sampleUser "alice")], blobs := [],
    queue := [], trace := [] }

/-- An upload by alice of the three bytes 0, 1, 2 under the name a.exe. -/
def aliceUpload : file.PostFilesRequest :=
  { username := "alice", formFile := some ⟨"a.exe", 3, [0, 1, 2]⟩, country := "FR" }

/-- An environment in which the queue publish fails and all else succeeds. -/
def publishDown : Env := { Env.ok 7 8 "g" with publishErr := some "no connection" }

/-- An environment in which the upsert of a file document fails and all else
succeeds. -/
def fileSaveDown : Env := { Env.ok 7 8 "g" with fileSaveErr := true }

/-- The world after alice's upload: it holds the record of the hash abc. -/
def knownWorld : World := (file.PostFiles sampleDeps (Env.ok 7 8 "g") aliceUpload aliceWorld).2

/-- A well-formed sha256: 64 times the digit a. -/
def sampleHash : String := String.mk (List.replicate 64 'a')

/-- A record of `sampleHash` with one submission and the given status. -/
def sampleRecord (status : Int) : file.File :=
  { file.File.zero with
    Sha256 := sampleHash, Status := status, FirstSubmission := some 1,
    LastSubmission := some 1, Submissions := [⟨some 1, "a.exe", "web", "FR"⟩] }

/-- A world that holds alice and a finished record of `sampleHash`. -/
def scannedWorld : World :=
  { files := [(sampleHash, sampleRecord file.finished)],
    users := [("alice", sampleUser "alice")], blobs := [], queue := [], trace := [] }

/-- An upload by alice whose declared size is one byte above the limit of
`sampleDeps`. -/
def bigUpload : file.PostFilesRequest :=
  { username := "alice", formFile := some ⟨"big.bin", 67108865, [0]⟩, country := "FR" }

/-- The same oversize upload by bob, who has no UserRecord in `aliceWorld`. -/
def strangerUpload : file.PostFilesRequest :=
  { username := "bob", formFile := some ⟨"big.bin", 67108865, [0]⟩, country := "FR" }

/-- A file service whose `Create` always answers with the document "created". -/
def sampleService : resource.Service :=
  { Create := fun _ w => (.ok "created", w) }

/-- A world that holds the fresh users alice and bob. -/
def pairWorld : World :=
  { files := [], users := [("alice", sampleUser "alice"), ("bob", sampleUser "bob")],
    blobs := [], queue := [], trace := [] }

/-- Every document of the `users` collection is stored under its lower-cased
`Username`, the key `User.Save` writes it under. -/
def KeyedByName (d : Deps) (users : List (String × user.User)) : Prop :=
  ∀ k u, lookup users k = some u → d.ToLower u.Username = k

/-- A world in which alice follows nobody while the record of bob still lists
her as a follower. -/
def staleWorld : World :=
  { files := [],
    users := [("alice", sampleUser "alice"),
      ("bob", { sampleUser "bob" with Followers := ["alice"], FollowersCount := 1 })],
    blobs := [], queue := [], trace := [] }

/-- A finished record of `sampleHash` with one comment, written by alice under
the ID c1. -/
def commentedRecord : file.File :=
  { sampleRecord file.finished with Comments := [⟨some 5, "alice", "hello", "c1"⟩] }

/-- A world that holds alice, bob and `commentedRecord`. -/
def commentedWorld : World :=
  { files := [(sampleHash, commentedRecord)],
    users := [("alice", sampleUser "alice"), ("bob", sampleUser "bob")],
    blobs := [], queue := [], trace := [] }


/-! ## A schedule of two concurrent requests, and further samples -/

/-- Two follow requests on one target served at the same time, in the schedule
in which both handlers have read their two documents before either writes: the
handler of `a` reads, the handler of `b` reads, the handler of `a` runs its
switch and replies, then the handler of `b` does.  The result is `none` when a
read fails or a handler would stop before its switch. -/
def concurrentFollows (d : Deps) (e1 e2 : Env) (a b target : String) (w : World) :
    Option World :=
  match user.GetByUsername d e1.getUserErr a w with
  | (none, _) => none
  | (some A, w) =>
  match user.GetByUsername d e1.getTargetErr target w with
  | (none, _) => none
  | (some T1, w) =>
  match user.GetByUsername d e2.getUserErr b w with
  | (none, _) => none
  | (some B, w) =>
  match user.GetByUsername d e2.getTargetErr target w with
  | (none, _) => none
  | (some T2, w) =>
  if A.Username = T1.Username ∨ B.Username = T2.Username then none
  else
  let w := (user.ActionsAfterReads d e1 "follow" A T1 w).2
  some (user.ActionsAfterReads d e2 "follow" B T2 w).2

/-- A world that holds the fresh users alice, bob and carol. -/
def crowdWorld : World :=
  { files := [],
    users := [("alice", sampleUser "alice"), ("bob", sampleUser "bob"),
      ("carol", sampleUser "carol")],
    blobs := [], queue := [], trace := [] }

/-- A record of `sampleHash` with four comments: one of bob under the ID k1,
two of alice under the ID k2 and one of bob under the ID k3. -/
def threadRecord : file.File :=
  { sampleRecord file.finished with
    Comments := [⟨some 5, "bob", "first", "k1"⟩, ⟨some 6, "alice", "second", "k2"⟩,
      ⟨some 7, "alice", "third", "k2"⟩, ⟨some 8, "bob", "fourth", "k3"⟩] }

/-- A world that holds `threadRecord` and alice, whose record mirrors her
comment k2. -/
def threadWorld : World :=
  { files := [(sampleHash, threadRecord)],
    users := [("alice", { sampleUser "alice" with
      Comments := [⟨some 6, sampleHash, "second", "k2"⟩] })],
    blobs := [], queue := [], trace := [] }

/-- A registration body that claims every privilege: confirmed, admin, an
avatar, and non-empty lists. -/
def greedyBody : user.User :=
  { sampleUser "Mallory" with
    Email := "Mallory@Example.COM", Password := "secret", Confirmed := true, Admin := true,
    HasAvatar := true, Following := ["alice"], Followers := ["alice"],
    Likes := [sampleHash], Comments := [⟨some 1, sampleHash, "hi", "k9"⟩],
    Submissions := [⟨some 1, sampleHash⟩], Activities := [⟨some 1, "like", []⟩] }

/-- Sample dependencies of the auth handlers: a hash matches a password when it
is the password after the mark "h:". -/
def sampleAuthDeps : AuthDeps :=
  { sampleDeps with
    CompareHashAndPassword := fun hash pwd => decide (hash = "h:" ++ pwd),
    uiAddress := "https://ui.example", Domain := "example" }

/-- A world that holds dave, confirmed, with the password hash of "pw", and
erin, not confirmed, with the same hash. -/
def memberWorld : World :=
  { files := [],
    users := [("dave", { sampleUser "dave" with Password := "h:pw", Confirmed := true }),
      ("erin", { sampleUser "erin" with Password := "h:pw" })],
    blobs := [], queue := [], trace := [] }

/-- A complete SMTP configuration. -/
def fullSMTP : email.SMTPConfig :=
  { Server := "smtp.example", Port := 587, SMTPUser := "mailer", SMTPPassword := "x",
    SenderIdentity := "Saferwall", SenderEmail := "noreply@example" }

/-- An SMTP configuration without a server. -/
def bareSMTP : email.SMTPConfig := { fullSMTP with Server := "" }

/-- A file service that answers every call with success and counts ten files. -/
def sampleAdminService : resource.AdminService :=
  { sampleService with
    Update := fun _ _ w => (.ok "updated", w),
    Delete := fun _ w => (.ok "deleted", w),
    Count := fun w => (.ok 10, w),
    Query := fun _ _ w => (.ok ["f1", "f2"], w) }

/-- A request on `sampleHash` by the given context user, with an input that
binds and pages of ten items. -/
def sampleAdminRequest (user : Option entity.User) : resource.AdminRequest :=
  { user := user, sha256 := sampleHash, input := some "report", pages := fun _ => (0, 10) }
/-! ## Facts about the document store -/

/-- After an upsert under a key, the key holds the new document. -/
theorem lookup_upsert_self {α : Type} (s : List (String × α)) (k : String) (v : α) :
    lookup (upsert s k v) k = some v := by
  induction s with
  | nil => simp [upsert, lookup]
  | cons p t ih =>
    obtain ⟨k', v'⟩ := p
    by_cases h : k' = k
    · simp [upsert, lookup, h]
    · simp [upsert, lookup, h, ih]

/-- An upsert under a key leaves every other key as it was. -/
theorem lookup_upsert_of_ne {α : Type} (s : List (String × α)) (k k2 : String) (v : α)
    (h : k2 ≠ k) : lookup (upsert s k v) k2 = lookup s k2 := by
  induction s with
  | nil => simp [upsert, lookup, Ne.symm h]
  | cons p t ih =>
    obtain ⟨k', v'⟩ := p
    by_cases h1 : k' = k
    · subst h1
      simp [upsert, lookup, Ne.symm h]
    · by_cases h2 : k' = k2
      · subst h2
        simp [upsert, lookup, h]
      · simp [upsert, lookup, h1, h2, ih]

/-- A key that holds no document occurs in no entry. -/
theorem countKey_eq_zero_of_lookup_none {α : Type} (s : List (String × α)) (k : String)
    (h : lookup s k = none) : countKey s k = 0 := by
  induction s with
  | nil => simp [countKey]
  | cons p t ih =>
    obtain ⟨k', v'⟩ := p
    by_cases h1 : k' = k
    · simp [lookup, h1] at h
    · simp only [lookup, h1, if_false] at h
      have := ih h
      simp only [countKey] at this ⊢
      simp [List.filter_cons, h1, this]

/-- An upsert under a key that held nothing adds exactly one entry for it. -/
theorem countKey_upsert_of_zero {α : Type} (s : List (String × α)) (k : String) (v : α)
    (h : countKey s k = 0) : countKey (upsert s k v) k = 1 := by
  induction s with
  | nil => simp [countKey, upsert]
  | cons p t ih =>
    obtain ⟨k', v'⟩ := p
    by_cases h1 : k' = k
    · simp [countKey, List.filter_cons, h1] at h
    · simp only [countKey, List.filter_cons, h1, decide_False] at h
      have := ih (by simpa [countKey] using h)
      simp only [countKey] at this
      simp [countKey, upsert, List.filter_cons, h1, this]

/-- An upsert under a key that occurs once keeps it occurring once. -/
theorem countKey_upsert_of_one {α : Type} (s : List (String × α)) (k : String) (v : α)
    (h : countKey s k = 1) : countKey (upsert s k v) k = 1 := by
  induction s with
  | nil => simp [countKey] at h
  | cons p t ih =>
    obtain ⟨k', v'⟩ := p
    by_cases h1 : k' = k
    · simp only [countKey, List.filter_cons, h1, decide_True, if_true, List.length_cons] at h
      simp only [countKey] 
      simp [upsert, List.filter_cons, h1]
      simpa using h
    · simp only [countKey, List.filter_cons, h1, decide_False] at h
      have := ih (by simpa [countKey] using h)
      simp only [countKey] at this
      simp [countKey, upsert, List.filter_cons, h1, this]

/-- Logging a call changes the trace alone. -/
@[simp] theorem World.log_files (w : World) (x : Effect) : (w.log x).files = w.files := rfl

/-- Logging a call changes the trace alone. -/
@[simp] theorem World.log_users (w : World) (x : Effect) : (w.log x).users = w.users := rfl

/-- Logging a call changes the trace alone. -/
@[simp] theorem World.log_blobs (w : World) (x : Effect) : (w.log x).blobs = w.blobs := rfl

/-- Logging a call changes the trace alone. -/
@[simp] theorem World.log_queue (w : World) (x : Effect) : (w.log x).queue = w.queue := rfl

/-- Logging a call appends it to the trace. -/
@[simp] theorem World.log_trace (w : World) (x : Effect) :
    (w.log x).trace = w.trace ++ [x] := rfl

/-- Saving a user leaves the files collection as it was. -/
@[simp] theorem user.User.Save_files (d : Deps) (b : Bool) (u : user.User) (w : World) :
    (user.User.Save d b u w).files = w.files := by
  unfold user.User.Save; cases b <;> rfl

/-- Saving a user leaves the blob store as it was. -/
@[simp] theorem user.User.Save_blobs (d : Deps) (b : Bool) (u : user.User) (w : World) :
    (user.User.Save d b u w).blobs = w.blobs := by
  unfold user.User.Save; cases b <;> rfl

/-- Saving a user publishes nothing. -/
@[simp] theorem user.User.Save_queue (d : Deps) (b : Bool) (u : user.User) (w : World) :
    (user.User.Save d b u w).queue = w.queue := by
  unfold user.User.Save; cases b <;> rfl

/-- Saving a user is one call to the users collection. -/
@[simp] theorem user.User.Save_trace (d : Deps) (b : Bool) (u : user.User) (w : World) :
    (user.User.Save d b u w).trace = w.trace ++ [.userUpsert (d.ToLower u.Username)] := by
  unfold user.User.Save; cases b <;> rfl

/-! ## The I/O calls as pairs -/

/-- The call `Publish` as a pair: the error, and the world after. -/
theorem Publish_eq (e : Env) (t p : String) (w : World) :
    Publish e t p w =
      (e.publishErr,
        match e.publishErr with
        | some _ => w.log (.publish t p)
        | none => { w with queue := w.queue ++ [(t, p)], trace := w.trace ++ [.publish t p] }) := by
  unfold Publish
  cases e.publishErr <;> rfl

/-- The call `PutObject` as a pair: the error, and the world after. -/
theorem PutObject_eq (e : Env) (k : String) (c : Bytes) (w : World) :
    PutObject e k c w =
      (e.putObjectErr,
        match e.putObjectErr with
        | some _ => w.log (.putObject k)
        | none => { w with blobs := upsert w.blobs k c, trace := w.trace ++ [.putObject k] }) := by
  unfold PutObject
  cases e.putObjectErr <;> rfl

/-- The method `File.Save` as a pair: the failure, and the world after. -/
theorem File.Save_eq (e : Env) (f : file.File) (w : World) :
    file.File.Save e f w =
      (e.fileSaveErr,
        match e.fileSaveErr with
        | true => w.log (.fileUpsert f.Sha256)
        | false => { w with files := upsert w.files f.Sha256 f,
                            trace := w.trace ++ [.fileUpsert f.Sha256] }) := by
  unfold file.File.Save
  cases e.fileSaveErr <;> rfl

/-- The function `GetFileBySHA256` as a pair: the result, and the world after. -/
theorem GetFileBySHA256_eq (e : Env) (s : String) (w : World) :
    file.GetFileBySHA256 e s w = (fileResult e w.files s, w.log (.fileGet s)) := by
  unfold file.GetFileBySHA256 fileResult
  cases e.getFileErr <;> simp
  cases lookup w.files s <;> simp

/-- The lookup reports an absent document when the call succeeds and the key
holds nothing. -/
@[simp] theorem fileResult_eq_notFound (e : Env) (fs : List (String × file.File))
    (s : String) :
    fileResult e fs s = .error .notFound ↔ e.getFileErr = none ∧ lookup fs s = none := by
  unfold fileResult
  cases e.getFileErr <;> simp
  cases lookup fs s <;> simp

/-- The lookup reports another error when the call fails. -/
@[simp] theorem fileResult_eq_other (e : Env) (fs : List (String × file.File))
    (s msg : String) :
    fileResult e fs s = .error (.other msg) ↔ e.getFileErr = some msg := by
  unfold fileResult
  cases e.getFileErr <;> simp
  cases lookup fs s <;> simp

/-- The lookup returns a document when the call succeeds and the key holds it. -/
@[simp] theorem fileResult_eq_ok (e : Env) (fs : List (String × file.File))
    (s : String) (f : file.File) :
    fileResult e fs s = .ok f ↔ e.getFileErr = none ∧ lookup fs s = some f := by
  unfold fileResult
  cases e.getFileErr <;> simp
  cases lookup fs s <;> simp

/-- The function `GetByUsername` as a pair: the result, and the world after. -/
theorem GetByUsername_eq (d : Deps) (b : Bool) (n : String) (w : World) :
    user.GetByUsername d b n w =
      (if b then none else lookup w.users (d.ToLower n), w.log (.userGet (d.ToLower n))) := by
  unfold user.GetByUsername
  cases b <;> simp

/-! ## PostFiles on content that is new -/

/-- C1 (amended): for every upload whose content hash has no FileRecord in the
store and whose blob upload and FileRecord write succeed, `PostFiles` stores,
under that hash, a FileRecord with `Status = queued`, `FirstSubmission =
LastSubmission =` the handler's clock reading, `Size =` the upload size and
exactly one submission, which carries the uploaded filename and the value of
`X-Geoip-Country`; the reply is 201 when the queue publish succeeds as well and
500 when it fails. -/
theorem PostFiles_new_stores_record (d : Deps) (e : Env) (req : file.PostFilesRequest)
    (w : World) (usr : user.User) (fh : file.FileHeader)
    (hu : e.getUserErr = false)
    (husr : lookup w.users (d.ToLower req.username) = some usr)
    (hf : req.formFile = some fh) (hsz : ¬ fh.Size > d.MaxFileSize)
    (hopen : e.openErr = false) (hread : e.readErr = none)
    (hget : e.getFileErr = none)
    (hnew : lookup w.files (d.GetSha256 fh.content) = none)
    (hput : e.putObjectErr = none) (hsave : e.fileSaveErr = false) :
    lookup (file.PostFiles d e req w).2.files (d.GetSha256 fh.content) =
        some { file.File.zero with
          Sha256 := d.GetSha256 fh.content
          Size := fh.Size
          Status := file.queued
          FirstSubmission := some e.now
          LastSubmission := some e.now
          Submissions := [⟨some e.now, fh.Filename, "web", req.country⟩] } ∧
      (e.publishErr = none → (file.PostFiles d e req w).1.code = 201) ∧
      (e.publishErr ≠ none → (file.PostFiles d e req w).1.code = 500) := by
  cases hp : e.publishErr <;>
    simp [file.PostFiles, user.GetByUsername, file.GetFileBySHA256, PutObject,
      file.File.Save, Publish, hu, husr, hf, hsz, hopen, hread, hget,
      hnew, hput, hsave, hp, lookup_upsert_self, file.File.zero]

/-- Witness for C1 (amended): alice's upload to a store that holds no file. -/
theorem PostFiles_new_stores_record_witness :
    lookup (file.PostFiles sampleDeps (Env.ok 7 8 "g") aliceUpload aliceWorld).2.files
        (sampleDeps.GetSha256 [0, 1, 2]) =
        some { file.File.zero with
          Sha256 := sampleDeps.GetSha256 [0, 1, 2]
          Size := 3
          Status := file.queued
          FirstSubmission := some 7
          LastSubmission := some 7
          Submissions := [⟨some 7, "a.exe", "web", "FR"⟩] } ∧
      ((Env.ok 7 8 "g").publishErr = none →
        (file.PostFiles sampleDeps (Env.ok 7 8 "g") aliceUpload aliceWorld).1.code = 201) ∧
      ((Env.ok 7 8 "g").publishErr ≠ none →
        (file.PostFiles sampleDeps (Env.ok 7 8 "g") aliceUpload aliceWorld).1.code = 500) :=
  PostFiles_new_stores_record sampleDeps (Env.ok 7 8 "g") aliceUpload aliceWorld
    (sampleUser "alice") ⟨"a.exe", 3, [0, 1, 2]⟩ rfl (by decide) rfl (by decide) rfl rfl rfl
    (by decide) rfl rfl

/-- C1 as stated fails: the hash has no FileRecord, the blob upload and the
document writes succeed, and the reply is 500, not 201, because the publish
fails. -/
theorem PostFiles_new_not_created_when_publish_fails :
    lookup aliceWorld.files (sampleDeps.GetSha256 [0, 1, 2]) = none ∧
      publishDown.putObjectErr = none ∧ publishDown.fileSaveErr = false ∧
      publishDown.userSaveErr = false ∧ publishDown.userSave2Err = false ∧
      (file.PostFiles sampleDeps publishDown aliceUpload aliceWorld).1.code = 500 ∧
      (file.PostFiles sampleDeps publishDown aliceUpload aliceWorld).1.code ≠ 201 := by
  decide

/-! ## PostFiles on content that is known -/

/-- The number of blob uploads of a trace is additive. -/
theorem blobWrites_append (a b : List Effect) :
    blobWrites (a ++ b) = blobWrites a + blobWrites b := by
  simp [blobWrites]

/-- An upsert removes no key. -/
theorem lookup_upsert_isSome {α : Type} (s : List (String × α)) (k k2 : String) (v : α)
    (h : (lookup s k2).isSome = true) : (lookup (upsert s k v) k2).isSome = true := by
  by_cases hk : k2 = k
  · subst hk
    simp [lookup_upsert_self]
  · rw [lookup_upsert_of_ne s k k2 v hk]
    exact h

/-- Saving a user removes no user. -/
theorem user.User.Save_users_isSome (d : Deps) (b : Bool) (u : user.User) (w : World)
    (k : String) (h : (lookup w.users k).isSome = true) :
    (lookup (user.User.Save d b u w).users k).isSome = true := by
  unfold user.User.Save
  cases b
  · simpa using lookup_upsert_isSome w.users _ k u h
  · simpa using h

/-- The files collection after `PostFiles` on new content, when the blob upload
and the FileRecord write succeed. -/
theorem PostFiles_new_files (d : Deps) (e : Env) (req : file.PostFilesRequest)
    (w : World) (usr : user.User) (fh : file.FileHeader)
    (hu : e.getUserErr = false)
    (husr : lookup w.users (d.ToLower req.username) = some usr)
    (hf : req.formFile = some fh) (hsz : ¬ fh.Size > d.MaxFileSize)
    (hopen : e.openErr = false) (hread : e.readErr = none)
    (hget : e.getFileErr = none)
    (hnew : lookup w.files (d.GetSha256 fh.content) = none)
    (hput : e.putObjectErr = none) (hsave : e.fileSaveErr = false) :
    (file.PostFiles d e req w).2.files =
        upsert w.files (d.GetSha256 fh.content)
          { file.File.zero with
            Sha256 := d.GetSha256 fh.content
            Size := fh.Size
            Status := file.queued
            FirstSubmission := some e.now
            LastSubmission := some e.now
            Submissions := [⟨some e.now, fh.Filename, "web", req.country⟩] } ∧
      blobWrites (file.PostFiles d e req w).2.trace = blobWrites w.trace + 1 ∧
      ∀ k, (lookup w.users k).isSome = true →
        (lookup (file.PostFiles d e req w).2.users k).isSome = true := by
  cases hp : e.publishErr <;>
    simp [file.PostFiles, user.GetByUsername, file.GetFileBySHA256, PutObject,
      file.File.Save, Publish, hu, husr, hf, hsz, hopen, hread, hget,
      hnew, hput, hsave, hp, file.File.zero, blobWrites_append] <;>
    refine ⟨by simp [blobWrites], fun k hk => ?_⟩
  · exact user.User.Save_users_isSome _ _ _ _ _ (user.User.Save_users_isSome _ _ _ _ _ hk)
  · exact user.User.Save_users_isSome _ _ _ _ _ hk

/-- The outcome of `PostFiles` on known content: the reply, the files
collection, the blob store and the trace. -/
theorem PostFiles_repeat_outcome (d : Deps) (e : Env) (req : file.PostFilesRequest)
    (w : World) (usr : user.User) (fh : file.FileHeader) (r : file.File)
    (hu : e.getUserErr = false)
    (husr : lookup w.users (d.ToLower req.username) = some usr)
    (hf : req.formFile = some fh) (hsz : ¬ fh.Size > d.MaxFileSize)
    (hopen : e.openErr = false) (hread : e.readErr = none)
    (hget : e.getFileErr = none)
    (hold : lookup w.files (d.GetSha256 fh.content) = some r)
    (hsave : e.fileSaveErr = false) :
    file.PostFiles d e req w =
      (⟨200, .file { r with
          Submissions := r.Submissions ++ [⟨some e.now, fh.Filename, "api", req.country⟩]
          LastSubmission := some e.now }⟩,
       { w with
          files := upsert w.files r.Sha256 { r with
            Submissions := r.Submissions ++ [⟨some e.now, fh.Filename, "api", req.country⟩]
            LastSubmission := some e.now }
          trace := w.trace ++ [.userGet (d.ToLower req.username), .fileOpen fh.Filename,
            .fileRead fh.Filename, .fileGet (d.GetSha256 fh.content),
            .fileUpsert r.Sha256] }) := by
  simp [file.PostFiles, user.GetByUsername, file.GetFileBySHA256,
    file.File.Save, World.log, hu, husr, hf, hsz, hopen, hread, hget, hold, hsave]

/-- C2: for every upload whose content hash already has a FileRecord with n
submissions, `PostFiles` uploads no blob, stores the same record with n+1
submissions (the previous ones unchanged and in order, the new one last) and
`LastSubmission` set to the clock reading, and replies 200; and submitting the
same bytes twice to a store that has no record of them makes exactly one blob
upload, exactly one FileRecord and exactly two submissions. -/
theorem PostFiles_repeat_appends_submission :
    (∀ (d : Deps) (e : Env) (req : file.PostFilesRequest) (w : World) (usr : user.User)
        (fh : file.FileHeader) (r : file.File),
        e.getUserErr = false → lookup w.users (d.ToLower req.username) = some usr →
        req.formFile = some fh → ¬ fh.Size > d.MaxFileSize →
        e.openErr = false → e.readErr = none → e.getFileErr = none →
        lookup w.files (d.GetSha256 fh.content) = some r →
        r.Sha256 = d.GetSha256 fh.content → e.fileSaveErr = false →
        ∃ r2 : file.File,
          (file.PostFiles d e req w).1 = ⟨200, .file r2⟩ ∧
          lookup (file.PostFiles d e req w).2.files (d.GetSha256 fh.content) = some r2 ∧
          r2 = { r with
            Submissions := r.Submissions ++ [⟨some e.now, fh.Filename, "api", req.country⟩]
            LastSubmission := some e.now } ∧
          r2.Submissions.length = r.Submissions.length + 1 ∧
          r.Submissions <+: r2.Submissions ∧
          (file.PostFiles d e req w).2.blobs = w.blobs ∧
          blobWrites (file.PostFiles d e req w).2.trace = blobWrites w.trace) ∧
    (∀ (d : Deps) (e1 e2 : Env) (req1 req2 : file.PostFilesRequest) (w : World)
        (usr1 usr2 : user.User) (fh1 fh2 : file.FileHeader),
        e1.getUserErr = false → e2.getUserErr = false →
        lookup w.users (d.ToLower req1.username) = some usr1 →
        lookup w.users (d.ToLower req2.username) = some usr2 →
        req1.formFile = some fh1 → req2.formFile = some fh2 →
        fh2.content = fh1.content →
        ¬ fh1.Size > d.MaxFileSize → ¬ fh2.Size > d.MaxFileSize →
        e1.openErr = false → e1.readErr = none → e1.getFileErr = none →
        e2.openErr = false → e2.readErr = none → e2.getFileErr = none →
        e1.putObjectErr = none → e1.fileSaveErr = false → e2.fileSaveErr = false →
        lookup w.files (d.GetSha256 fh1.content) = none →
        blobWrites (file.PostFiles d e2 req2 (file.PostFiles d e1 req1 w).2).2.trace =
            blobWrites w.trace + 1 ∧
          countKey (file.PostFiles d e2 req2 (file.PostFiles d e1 req1 w).2).2.files
            (d.GetSha256 fh1.content) = 1 ∧
          ∃ r2 : file.File,
            lookup (file.PostFiles d e2 req2 (file.PostFiles d e1 req1 w).2).2.files
              (d.GetSha256 fh1.content) = some r2 ∧
            r2.Submissions = [⟨some e1.now, fh1.Filename, "web", req1.country⟩,
              ⟨some e2.now, fh2.Filename, "api", req2.country⟩] ∧
            r2.Submissions.length = 2) := by
  constructor
  · intro d e req w usr fh r hu husr hf hsz hopen hread hget hold hkey hsave
    rw [PostFiles_repeat_outcome d e req w usr fh r hu husr hf hsz hopen hread hget hold hsave]
    refine ⟨_, rfl, ?_, rfl, by simp, by simp, rfl, ?_⟩
    · simp [hkey, lookup_upsert_self]
    · simp [blobWrites_append, blobWrites]
  · intro d e1 e2 req1 req2 w usr1 usr2 fh1 fh2 hu1 hu2 husr1 husr2 hf1 hf2 hc hsz1 hsz2
      hopen1 hread1 hget1 hopen2 hread2 hget2 hput1 hsave1 hsave2 hnew
    obtain ⟨hfiles, hblob, husers⟩ := PostFiles_new_files d e1 req1 w usr1 fh1 hu1 husr1 hf1
      hsz1 hopen1 hread1 hget1 hnew hput1 hsave1
    have h2 := husers (d.ToLower req2.username) (by simp [husr2])
    obtain ⟨usr2', husr2'⟩ := Option.isSome_iff_exists.mp h2
    have hold : lookup (file.PostFiles d e1 req1 w).2.files (d.GetSha256 fh2.content) =
        some (⟨d.GetSha256 fh1.content, fh1.Size, some e1.now, some e1.now, none,
          [⟨some e1.now, fh1.Filename, "web", req1.country⟩], file.queued, [], []⟩ :
          file.File) := by
      rw [hfiles, hc, lookup_upsert_self]
      rfl
    rw [PostFiles_repeat_outcome d e2 req2 _ usr2' fh2 _ hu2 husr2' hf2 hsz2 hopen2 hread2
      hget2 hold hsave2]
    refine ⟨?_, ?_, ?_⟩
    · simp only [blobWrites_append, hblob]
      simp [blobWrites]
    · simp only [hfiles]
      apply countKey_upsert_of_one
      apply countKey_upsert_of_zero
      exact countKey_eq_zero_of_lookup_none _ _ hnew
    · exact ⟨_, lookup_upsert_self _ _ _, rfl, rfl⟩

/-- Witness for C2: alice uploads the same three bytes a second time, and twice
to the store that holds no file. -/
theorem PostFiles_repeat_appends_submission_witness :
    (∃ r2 : file.File,
      (file.PostFiles sampleDeps (Env.ok 9 10 "g") aliceUpload knownWorld).1 =
        ⟨200, .file r2⟩ ∧
      r2.Submissions.length = 2 ∧
      blobWrites (file.PostFiles sampleDeps (Env.ok 9 10 "g") aliceUpload knownWorld).2.trace =
        blobWrites knownWorld.trace) ∧
    countKey (file.PostFiles sampleDeps (Env.ok 9 10 "g") aliceUpload
      (file.PostFiles sampleDeps (Env.ok 7 8 "g") aliceUpload aliceWorld).2).2.files
      (sampleDeps.GetSha256 [0, 1, 2]) = 1 := by
  constructor
  · obtain ⟨r2, h1, _, _, h4, _, _, h7⟩ :=
      PostFiles_repeat_appends_submission.1 sampleDeps (Env.ok 9 10 "g") aliceUpload knownWorld
        _ ⟨"a.exe", 3, [0, 1, 2]⟩ _ rfl rfl rfl (by decide) rfl rfl rfl rfl rfl rfl
    exact ⟨r2, h1, h4, h7⟩
  · exact (PostFiles_repeat_appends_submission.2 sampleDeps (Env.ok 7 8 "g") (Env.ok 9 10 "g")
      aliceUpload aliceUpload aliceWorld (sampleUser "alice") (sampleUser "alice")
      ⟨"a.exe", 3, [0, 1, 2]⟩ ⟨"a.exe", 3, [0, 1, 2]⟩ rfl rfl (by decide) (by decide) rfl rfl
      rfl (by decide) (by decide) rfl rfl rfl rfl rfl rfl rfl rfl rfl (by decide)).2.1

/-! ## What PostFiles publishes -/

/-- C3 (amended): every `PostFiles` call that replies 201 (the content is new)
publishes exactly one message, on topic "scan" and with the content hash as
payload; a call that replies 200 (the content is already known) publishes
nothing. -/
theorem PostFiles_publishes_once_when_created (d : Deps) (e : Env)
    (req : file.PostFilesRequest) (w : World) :
    ((file.PostFiles d e req w).1.code = 201 →
        ∃ fh, req.formFile = some fh ∧
          (file.PostFiles d e req w).2.queue =
            w.queue ++ [("scan", d.GetSha256 fh.content)]) ∧
      ((file.PostFiles d e req w).1.code = 200 →
        (file.PostFiles d e req w).2.queue = w.queue) := by
  simp only [file.PostFiles, GetByUsername_eq, GetFileBySHA256_eq, PutObject_eq,
    File.Save_eq, Publish_eq]
  repeat' split
  all_goals (try simp_all)
  all_goals (try casesm* _ ∧ _)
  all_goals (try subst_vars)
  all_goals (repeat' split)
  all_goals (try simp_all)

/-- Witness for C3 (amended): alice's first upload replies 201 with one message
published, her second replies 200 with none. -/
theorem PostFiles_publishes_once_when_created_witness :
    (∃ fh, aliceUpload.formFile = some fh ∧
      (file.PostFiles sampleDeps (Env.ok 7 8 "g") aliceUpload aliceWorld).2.queue =
        aliceWorld.queue ++ [("scan", sampleDeps.GetSha256 fh.content)]) ∧
    (file.PostFiles sampleDeps (Env.ok 9 10 "g") aliceUpload knownWorld).2.queue =
      knownWorld.queue :=
  ⟨(PostFiles_publishes_once_when_created sampleDeps (Env.ok 7 8 "g") aliceUpload
      aliceWorld).1 (by decide),
   (PostFiles_publishes_once_when_created sampleDeps (Env.ok 9 10 "g") aliceUpload
      knownWorld).2 (by decide)⟩

/-- C3 as stated fails: a second upload of known content succeeds (200) and
publishes no message. -/
theorem PostFiles_repeat_publishes_nothing :
    (file.PostFiles sampleDeps (Env.ok 9 10 "g") aliceUpload knownWorld).1.code = 200 ∧
      (file.PostFiles sampleDeps (Env.ok 9 10 "g") aliceUpload knownWorld).2.queue =
        knownWorld.queue ∧
      (file.PostFiles sampleDeps (Env.ok 9 10 "g") aliceUpload knownWorld).2.queue ≠
        knownWorld.queue ++ [("scan", sampleDeps.GetSha256 [0, 1, 2])] ∧
      Effect.publish "scan" (sampleDeps.GetSha256 [0, 1, 2]) ∉
        ((file.PostFiles sampleDeps (Env.ok 9 10 "g") aliceUpload knownWorld).2.trace.drop
          knownWorld.trace.length) := by
  decide

/-! ## The rescan action -/

/-- C4: for every path parameter whose lower-cased form is a well-formed sha256
and every valid body of type "rescan": when a FileRecord exists for the hash,
whatever its status, `Actions` publishes exactly one message, on topic "scan"
with the hash as payload, and replies 200; when none exists it replies 404 and
publishes nothing (its one I/O call is the lookup).  The lookup and the publish
are taken to succeed. -/
theorem Actions_rescan (d : Deps) (e : Env) (req : file.ActionsRequest) (w : World)
    (hhash : sha256regex (d.ToLower req.sha256) = true)
    (hbody : req.body = .decoded "rescan")
    (hget : e.getFileErr = none) :
    (∀ r : file.File, lookup w.files (d.ToLower req.sha256) = some r →
        e.publishErr = none →
        (file.Actions d e req w).1.code = 200 ∧
        (file.Actions d e req w).2.queue = w.queue ++ [("scan", d.ToLower req.sha256)] ∧
        (file.Actions d e req w).2.trace = w.trace ++
          [.fileGet (d.ToLower req.sha256), .publish "scan" (d.ToLower req.sha256)] ∧
        (file.Actions d e req w).2.files = w.files) ∧
      (lookup w.files (d.ToLower req.sha256) = none →
        (file.Actions d e req w).1.code = 404 ∧
        (file.Actions d e req w).2.queue = w.queue ∧
        (file.Actions d e req w).2 = w.log (.fileGet (d.ToLower req.sha256))) := by
  constructor
  · intro r hr hp
    simp [file.Actions, file.GetFileBySHA256, Publish, hhash, hbody, hget, hr, hp]
  · intro hr
    simp [file.Actions, file.GetFileBySHA256, hhash, hbody, hget, hr]

/-- Witness for C4: a rescan of a finished record, and of an unknown hash. -/
theorem Actions_rescan_witness :
    ((file.Actions sampleDeps (Env.ok 7 8 "g") ⟨sampleHash, .decoded "rescan", "alice"⟩
        scannedWorld).1.code = 200 ∧
      (file.Actions sampleDeps (Env.ok 7 8 "g") ⟨sampleHash, .decoded "rescan", "alice"⟩
        scannedWorld).2.queue = [("scan", sampleHash)]) ∧
    (file.Actions sampleDeps (Env.ok 7 8 "g") ⟨sampleHash, .decoded "rescan", "alice"⟩
        aliceWorld).1.code = 404 := by
  have h1 := (Actions_rescan sampleDeps (Env.ok 7 8 "g")
    ⟨sampleHash, .decoded "rescan", "alice"⟩ scannedWorld (by decide) rfl rfl).1
    (sampleRecord file.finished) (by decide) rfl
  have h2 := (Actions_rescan sampleDeps (Env.ok 7 8 "g")
    ⟨sampleHash, .decoded "rescan", "alice"⟩ aliceWorld (by decide) rfl rfl).2 (by decide)
  refine ⟨⟨h1.1, ?_⟩, h2.1⟩
  rw [h1.2.1]
  decide

/-! ## Oversize uploads -/

/-- C5 (amended): for every upload whose declared size exceeds the maximum,
`resource.create` returns the too-large error (413) before any I/O: the world
is unchanged, so the file is not opened and the service is not called.
`PostFiles` first reads the caller's UserRecord, its only I/O call; the user
being found it replies 413, and the file is not opened or read, no blob is
uploaded, no FileRecord is read, no document is written and no message is
published; the user not being found it replies 400. -/
theorem too_large_rejected (d : Deps) (e : Env) (w : World) (fh : file.FileHeader) :
    (∀ (r : resource.Service) (req : resource.CreateRequest),
        req.formFile = some fh → fh.Size > 60000000 →
        resource.create r e req w = (.error (.TooLargeEntity ""), w) ∧
        (resource.APIError.TooLargeEntity "").status = 413) ∧
      (∀ (req : file.PostFilesRequest) (usr : user.User),
        req.formFile = some fh → fh.Size > d.MaxFileSize →
        e.getUserErr = false → lookup w.users (d.ToLower req.username) = some usr →
        file.PostFiles d e req w =
          (⟨413, .response ⟨"", "File too large", "The maximum allowed is 64MB",
            fh.Filename⟩⟩, w.log (.userGet (d.ToLower req.username)))) ∧
      (∀ (req : file.PostFilesRequest),
        req.formFile = some fh → fh.Size > d.MaxFileSize →
        (e.getUserErr = true ∨ lookup w.users (d.ToLower req.username) = none) →
        file.PostFiles d e req w =
          (⟨400, .verbose "Username does not exists"⟩,
            w.log (.userGet (d.ToLower req.username)))) := by
  refine ⟨?_, ?_, ?_⟩
  · intro r req hf hsz
    simp [resource.create, hf, hsz, resource.APIError.status]
  · intro req usr hf hsz hu husr
    simp [file.PostFiles, user.GetByUsername, hf, hsz, hu, husr]
  · intro req hf hsz hu
    rcases hu with hu | hu
    · simp [file.PostFiles, user.GetByUsername, hu]
    · cases hb : e.getUserErr <;> simp [file.PostFiles, user.GetByUsername, hu, hb]

/-- Witness for C5 (amended): the oversize uploads of alice and of bob. -/
theorem too_large_rejected_witness :
    resource.create sampleService (Env.ok 7 8 "g") ⟨some ⟨"big.bin", 67108865, [0]⟩, "FR"⟩
        aliceWorld = (.error (.TooLargeEntity ""), aliceWorld) ∧
      (file.PostFiles sampleDeps (Env.ok 7 8 "g") bigUpload aliceWorld).1.code = 413 ∧
      (file.PostFiles sampleDeps (Env.ok 7 8 "g") strangerUpload aliceWorld).1.code = 400 := by
  have h := too_large_rejected sampleDeps (Env.ok 7 8 "g") aliceWorld ⟨"big.bin", 67108865, [0]⟩
  refine ⟨(h.1 sampleService _ rfl (by decide)).1, ?_, ?_⟩
  · rw [h.2.1 bigUpload (sampleUser "alice") rfl (by decide) rfl (by decide)]
  · rw [h.2.2 strangerUpload rfl (by decide) (Or.inr (by decide))]

/-- C5 as stated fails for `PostFiles`: on an oversize upload a document is
read before the size is checked (the UserRecord of the caller), and when that
read finds no user the reply is 400, not 413. -/
theorem PostFiles_too_large_reads_user :
    ((file.PostFiles sampleDeps (Env.ok 7 8 "g") bigUpload aliceWorld).1.code = 413 ∧
      Effect.userGet "alice" ∈
        (file.PostFiles sampleDeps (Env.ok 7 8 "g") bigUpload aliceWorld).2.trace) ∧
    ((file.PostFiles sampleDeps (Env.ok 7 8 "g") strangerUpload aliceWorld).1.code = 400 ∧
      (file.PostFiles sampleDeps (Env.ok 7 8 "g") strangerUpload aliceWorld).1.code ≠ 413) := by
  decide

/-! ## Failures after the upload -/

/-- C6: for every new submission in which the blob upload and the FileRecord
write succeed but the queue publish fails, `PostFiles` replies 500, not 201,
and the FileRecord with its submission is in the store afterwards. -/
theorem PostFiles_publish_failure_keeps_record (d : Deps) (e : Env)
    (req : file.PostFilesRequest) (w : World) (usr : user.User) (fh : file.FileHeader)
    (msg : String)
    (hu : e.getUserErr = false)
    (husr : lookup w.users (d.ToLower req.username) = some usr)
    (hf : req.formFile = some fh) (hsz : ¬ fh.Size > d.MaxFileSize)
    (hopen : e.openErr = false) (hread : e.readErr = none)
    (hget : e.getFileErr = none)
    (hnew : lookup w.files (d.GetSha256 fh.content) = none)
    (hput : e.putObjectErr = none) (hsave : e.fileSaveErr = false)
    (hpub : e.publishErr = some msg) :
    (file.PostFiles d e req w).1 =
        ⟨500, .response ⟨d.GetSha256 fh.content, "Publish failed", msg, fh.Filename⟩⟩ ∧
      (file.PostFiles d e req w).1.code ≠ 201 ∧
      lookup (file.PostFiles d e req w).2.files (d.GetSha256 fh.content) =
        some { file.File.zero with
          Sha256 := d.GetSha256 fh.content
          Size := fh.Size
          Status := file.queued
          FirstSubmission := some e.now
          LastSubmission := some e.now
          Submissions := [⟨some e.now, fh.Filename, "web", req.country⟩] } ∧
      lookup (file.PostFiles d e req w).2.blobs (d.GetSha256 fh.content) =
        some fh.content := by
  simp [file.PostFiles, user.GetByUsername, file.GetFileBySHA256, PutObject,
    file.File.Save, Publish, hu, husr, hf, hsz, hopen, hread, hget,
    hnew, hput, hsave, hpub, lookup_upsert_self, file.File.zero]

/-- Witness for C6: alice's upload while the queue is down. -/
theorem PostFiles_publish_failure_keeps_record_witness :
    (file.PostFiles sampleDeps publishDown aliceUpload aliceWorld).1.code ≠ 201 ∧
      lookup (file.PostFiles sampleDeps publishDown aliceUpload aliceWorld).2.blobs
        (sampleDeps.GetSha256 [0, 1, 2]) = some [0, 1, 2] :=
  have h := PostFiles_publish_failure_keeps_record sampleDeps publishDown aliceUpload
    aliceWorld (sampleUser "alice") ⟨"a.exe", 3, [0, 1, 2]⟩ "no connection" rfl (by decide)
    rfl (by decide) rfl rfl rfl (by decide) rfl rfl rfl
  ⟨h.2.1, h.2.2.2⟩

/-- C7 fails on the code: a new submission whose FileRecord upsert fails is
answered 201 Created and a scan message is published, while the store holds no
record of the hash. -/
theorem PostFiles_save_failure_still_created :
    fileSaveDown.fileSaveErr = true ∧
      lookup aliceWorld.files (sampleDeps.GetSha256 [0, 1, 2]) = none ∧
      (file.PostFiles sampleDeps fileSaveDown aliceUpload aliceWorld).1.code = 201 ∧
      (file.PostFiles sampleDeps fileSaveDown aliceUpload aliceWorld).2.queue =
        [("scan", sampleDeps.GetSha256 [0, 1, 2])] ∧
      lookup (file.PostFiles sampleDeps fileSaveDown aliceUpload aliceWorld).2.files
        (sampleDeps.GetSha256 [0, 1, 2]) = none := by
  decide

/-- C8 fails on the code: `ScanFileFromObjectStorage` on a hash that has a
FileRecord replaces the record; the submissions stored before are not a prefix
of those stored after. -/
theorem ScanFileFromObjectStorage_drops_submissions :
    lookup scannedWorld.files sampleHash = some (sampleRecord file.finished) ∧
      (file.ScanFileFromObjectStorage sampleDeps (Env.ok 7 8 "g") ⟨sampleHash, "DE"⟩
        scannedWorld).1.map Reply.code = some 201 ∧
      (lookup (file.ScanFileFromObjectStorage sampleDeps (Env.ok 7 8 "g") ⟨sampleHash, "DE"⟩
        scannedWorld).2.files sampleHash).map file.File.Submissions =
        some [⟨some 7, sampleHash, "api", "DE"⟩] ∧
      ¬ ((sampleRecord file.finished).Submissions <+:
          [(⟨some 7, sampleHash, "api", "DE"⟩ : file.submission)]) := by
  refine ⟨by decide, by decide, by decide, ?_⟩
  simp [sampleRecord, List.prefix_cons_inj, List.cons_prefix_cons]

/-! ## What the file handlers do to the files collection -/

/-- No write at all is a `FileWrite`. -/
theorem FileWrite.refl (fs : List (String × file.File)) : FileWrite fs fs := Or.inl rfl

/-- Rewriting a record under its key, with the status kept and the submissions
extended, is a `FileWrite`. -/
theorem FileWrite.known_keyed {fs : List (String × file.File)} {k : String}
    {r : file.File} (v : file.File) (hk : KeyedByHash fs)
    (hr : lookup fs k = some r) (hs : v.Status = r.Status)
    (hp : r.Submissions <+: v.Submissions) : FileWrite fs (upsert fs r.Sha256 v) := by
  rw [hk k r hr]
  exact Or.inr ⟨k, v, rfl, Or.inl ⟨r, hr, hs, hp⟩⟩

/-- Creating a queued record under a free key is a `FileWrite`. -/
theorem FileWrite.created (fs : List (String × file.File)) (k : String) (v : file.File)
    (hr : lookup fs k = none) (hs : v.Status = file.queued) : FileWrite fs (upsert fs k v) :=
  Or.inr ⟨k, v, rfl, Or.inr ⟨hr, hs⟩⟩

/-- A `FileWrite` keeps every status and creates queued records only. -/
theorem FileWrite.statusKept {fs fs2 : List (String × file.File)} (h : FileWrite fs fs2) :
    StatusKept fs fs2 := by
  rcases h with rfl | ⟨k, v, rfl, ⟨r, hr, hs, _⟩ | ⟨hr, hs⟩⟩
  · exact ⟨fun h r hr => ⟨r, hr, rfl⟩, fun h r2 h1 h2 => by simp [h1] at h2⟩
  · constructor
    · intro h r0 hr0
      by_cases hh : h = k
      · subst hh
        rw [hr] at hr0
        cases hr0
        exact ⟨v, lookup_upsert_self _ _ _, hs⟩
      · exact ⟨r0, by rw [lookup_upsert_of_ne _ _ _ _ hh]; exact hr0, rfl⟩
    · intro h r2 h1 h2
      by_cases hh : h = k
      · subst hh
        simp [hr] at h1
      · rw [lookup_upsert_of_ne _ _ _ _ hh, h1] at h2
        cases h2
  · constructor
    · intro h r0 hr0
      by_cases hh : h = k
      · subst hh
        simp [hr] at hr0
      · exact ⟨r0, by rw [lookup_upsert_of_ne _ _ _ _ hh]; exact hr0, rfl⟩
    · intro h r2 h1 h2
      by_cases hh : h = k
      · subst hh
        rw [lookup_upsert_self] at h2
        cases h2
        exact hs
      · rw [lookup_upsert_of_ne _ _ _ _ hh, h1] at h2
        cases h2

/-- The write of `PostFiles` to the files collection. -/
theorem PostFiles_fileWrite (d : Deps) (e : Env) (req : file.PostFilesRequest) (w : World)
    (hk : KeyedByHash w.files) : FileWrite w.files (file.PostFiles d e req w).2.files := by
  simp only [file.PostFiles, GetByUsername_eq, GetFileBySHA256_eq, PutObject_eq,
    File.Save_eq, Publish_eq]
  repeat' split
  all_goals (try simp_all)
  all_goals (try casesm* _ ∧ _)
  all_goals (try subst_vars)
  all_goals (repeat' split)
  all_goals (try simp_all)
  all_goals first
    | exact FileWrite.refl _
    | exact FileWrite.created _ _ _ (by assumption) rfl
    | exact FileWrite.known_keyed _ hk (by assumption) rfl (by simp)

/-- The write of `Actions` to the files collection: none. -/
theorem Actions_fileWrite (d : Deps) (e : Env) (req : file.ActionsRequest) (w : World) :
    (file.Actions d e req w).2.files = w.files := by
  simp only [file.Actions, GetByUsername_eq, GetFileBySHA256_eq, Publish_eq]
  repeat' split
  all_goals (try simp_all)
  all_goals (try casesm* _ ∧ _)
  all_goals (try subst_vars)
  all_goals (repeat' split)
  all_goals (try simp_all)

/-- The write of `PostComment` to the files collection. -/
theorem PostComment_fileWrite (d : Deps) (e : Env) (req : file.PostCommentRequest)
    (w : World) (hk : KeyedByHash w.files) :
    FileWrite w.files (file.PostComment d e req w).2.files := by
  simp only [file.PostComment, GetByUsername_eq, GetFileBySHA256_eq, File.Save_eq]
  repeat' split
  all_goals (try simp_all)
  all_goals (try casesm* _ ∧ _)
  all_goals (try subst_vars)
  all_goals (try simp_all)
  all_goals first
    | exact FileWrite.refl _
    | exact FileWrite.known_keyed _ hk (by assumption) rfl (by simp)

/-- The write of `DeleteComment` to the files collection. -/
theorem DeleteComment_fileWrite (d : Deps) (e : Env) (req : file.DeleteCommentRequest)
    (w : World) (hk : KeyedByHash w.files) :
    FileWrite w.files (file.DeleteComment d e req w).2.files := by
  simp only [file.DeleteComment, GetFileBySHA256_eq, File.Save_eq]
  repeat' split
  all_goals (try simp_all)
  all_goals (try casesm* _ ∧ _)
  all_goals (try subst_vars)
  all_goals (try simp_all)
  all_goals first
    | exact FileWrite.refl _
    | exact FileWrite.known_keyed _ hk (by assumption) rfl (by simp)

/-- C9: in a files collection whose records are stored under their own hash,
every call of `PostFiles`, `Actions` (whatever the action type, so rescan, like
and unlike too), `PostComment` and `DeleteComment` leaves the status of every
existing record unchanged, and a record these handlers create has status
`queued`. -/
theorem file_handlers_keep_status (d : Deps) (e : Env) (w : World)
    (hk : KeyedByHash w.files) :
    (∀ req, StatusKept w.files (file.PostFiles d e req w).2.files) ∧
      (∀ req, StatusKept w.files (file.Actions d e req w).2.files) ∧
      (∀ req, StatusKept w.files (file.PostComment d e req w).2.files) ∧
      (∀ req, StatusKept w.files (file.DeleteComment d e req w).2.files) := by
  refine ⟨fun req => ?_, fun req => ?_, fun req => ?_, fun req => ?_⟩
  · exact (PostFiles_fileWrite d e req w hk).statusKept
  · rw [Actions_fileWrite]
    exact (FileWrite.refl _).statusKept
  · exact (PostComment_fileWrite d e req w hk).statusKept
  · exact (DeleteComment_fileWrite d e req w hk).statusKept

/-- The one record of `scannedWorld` is stored under its hash. -/
theorem scannedWorld_keyed : KeyedByHash scannedWorld.files := by
  intro k f h
  simp only [scannedWorld, lookup] at h
  split at h
  · cases h
    subst_vars
    rfl
  · cases h

/-- Witness for C9: a comment by alice on the finished record of `sampleHash`
leaves it finished. -/
theorem file_handlers_keep_status_witness :
    KeyedByHash scannedWorld.files ∧
      ∃ r2, lookup (file.PostComment sampleDeps (Env.ok 7 8 "g")
          ⟨sampleHash, .decoded ⟨none, "", "hello", ""⟩, "alice"⟩ scannedWorld).2.files
          sampleHash = some r2 ∧ r2.Status = file.finished :=
  ⟨scannedWorld_keyed,
    ((file_handlers_keep_status sampleDeps (Env.ok 7 8 "g") scannedWorld
      scannedWorld_keyed).2.2.1 _).1 sampleHash (sampleRecord file.finished) (by decide)⟩

/-! ## Follow and unfollow between two users -/

/-- A successful follow or unfollow of `b` by `a` keeps the pair invariant. -/
theorem Actions_keeps_pair (d : Deps) (e : Env) (a b t : String) (w : World)
    (hne : d.ToLower a ≠ d.ToLower b) (ht : t = "follow" ∨ t = "unfollow")
    (h1 : e.getUserErr = false) (h2 : e.getTargetErr = false)
    (h3 : e.userSaveErr = false) (h4 : e.targetSaveErr = false)
    (hinv : PairInv d a b w) :
    PairInv d a b (user.Actions d e ⟨a, .decoded t, b⟩ w).2 := by
  obtain ⟨x, y, hx, hy, hxa, hyb, hxy, hyx⟩ := hinv
  have hab : a ≠ b := fun h => hne (by rw [h])
  have hba : b ≠ a := fun h => hab h.symm
  have hne2 : d.ToLower b ≠ d.ToLower a := fun h => hne h.symm
  subst hxa hyb
  unfold PairInv
  rcases ht with rfl | rfl <;> rcases hxy with ⟨p1, p2, p3, p4⟩ | ⟨p1, p2, p3, p4⟩ <;>
    simp [user.Actions, user.GetByUsername, user.User.Save, IsStringInSlice,
      RemoveStringFromSlice, hx, hy, hab, hba, h1, h2, h3, h4, p1, p2, p3, p4,
      lookup_upsert_self, lookup_upsert_of_ne, hne, hne2, Linked] <;>
    simpa [Linked] using hyx

/-- The pair invariant does not depend on the order of the two users. -/
theorem PairInv.swap {d : Deps} {a b : String} {w : World} (h : PairInv d a b w) :
    PairInv d b a w := by
  obtain ⟨x, y, hx, hy, hxa, hyb, hxy, hyx⟩ := h
  exact ⟨y, x, hy, hx, hyb, hxa, hyx, hxy⟩

/-- Every sequence of successful steps keeps the pair invariant. -/
theorem runSteps_keeps_pair (d : Deps) (a b : String)
    (hne : d.ToLower a ≠ d.ToLower b) (steps : List FollowStep) :
    ∀ w : World, (∀ s ∈ steps, s.Succeeds) → PairInv d a b w →
      PairInv d a b (runSteps d a b steps w) := by
  induction steps with
  | nil => intro w _ h; exact h
  | cons s t ih =>
    intro w hs h
    obtain ⟨ht, h1, h2, h3, h4⟩ := hs s (List.mem_cons_self _ _)
    apply ih _ (fun s2 hs2 => hs s2 (List.mem_cons_of_mem _ hs2))
    cases hf : s.forward
    · simp only [FollowStep.request, hf]
      exact (Actions_keeps_pair d s.env b a s.actionType w (fun h => hne h.symm) ht h1 h2 h3 h4
        h.swap).swap
    · simp only [FollowStep.request, hf]
      exact Actions_keeps_pair d s.env a b s.actionType w hne ht h1 h2 h3 h4 h

/-- C10: for two distinct freshly registered users A and B (empty `Following`
and `Followers`, zero counters) and every finite sequence of successful follow
and unfollow actions between them, in either direction, the records after the
sequence satisfy: B is in `A.Following` if and only if A is in `B.Followers`,
`A.FollowingCount = len(A.Following)`, `B.FollowersCount = len(B.Followers)`,
and neither list has a duplicate. -/
theorem follow_unfollow_converges (d : Deps) (w : World) (A B : user.User)
    (steps : List FollowStep)
    (hA : lookup w.users (d.ToLower A.Username) = some A)
    (hB : lookup w.users (d.ToLower B.Username) = some B)
    (hne : d.ToLower A.Username ≠ d.ToLower B.Username)
    (hA0 : A.Following = [] ∧ A.Followers = [] ∧ A.FollowingCount = 0 ∧ A.FollowersCount = 0)
    (hB0 : B.Following = [] ∧ B.Followers = [] ∧ B.FollowingCount = 0 ∧ B.FollowersCount = 0)
    (hs : ∀ s ∈ steps, s.Succeeds) :
    ∃ A2 B2 : user.User,
      lookup (runSteps d A.Username B.Username steps w).users (d.ToLower A.Username) =
        some A2 ∧
      lookup (runSteps d A.Username B.Username steps w).users (d.ToLower B.Username) =
        some B2 ∧
      A2.Username = A.Username ∧ B2.Username = B.Username ∧
      (B2.Username ∈ A2.Following ↔ A2.Username ∈ B2.Followers) ∧
      A2.FollowingCount = A2.Following.length ∧
      B2.FollowersCount = B2.Followers.length ∧
      A2.Following.Nodup ∧ B2.Followers.Nodup := by
  have h0 : PairInv d A.Username B.Username w :=
    ⟨A, B, hA, hB, rfl, rfl, Or.inl ⟨hA0.1, hA0.2.2.1, hB0.2.1, hB0.2.2.2⟩,
      Or.inl ⟨hB0.1, hB0.2.2.1, hA0.2.1, hA0.2.2.2⟩⟩
  obtain ⟨x, y, hx, hy, hxa, hyb, hxy, _⟩ :=
    runSteps_keeps_pair d A.Username B.Username hne steps w hs h0
  refine ⟨x, y, hx, hy, hxa, hyb, ?_⟩
  rcases hxy with ⟨p1, p2, p3, p4⟩ | ⟨p1, p2, p3, p4⟩ <;> simp [p1, p2, p3, p4]

/-- Witness for C10: alice follows bob, bob follows alice, alice unfollows bob. -/
theorem follow_unfollow_converges_witness :
    ∃ A2 B2 : user.User,
      lookup (runSteps sampleDeps "alice" "bob"
        [⟨true, "follow", Env.ok 1 2 "g"⟩, ⟨false, "follow", Env.ok 3 4 "g"⟩,
          ⟨true, "unfollow", Env.ok 5 6 "g"⟩] pairWorld).users "alice" = some A2 ∧
      lookup (runSteps sampleDeps "alice" "bob"
        [⟨true, "follow", Env.ok 1 2 "g"⟩, ⟨false, "follow", Env.ok 3 4 "g"⟩,
          ⟨true, "unfollow", Env.ok 5 6 "g"⟩] pairWorld).users "bob" = some B2 ∧
      (B2.Username ∈ A2.Following ↔ A2.Username ∈ B2.Followers) ∧
      A2.FollowingCount = A2.Following.length ∧
      B2.FollowersCount = B2.Followers.length := by
  obtain ⟨A2, B2, h1, h2, _, _, h5, h6, h7, _⟩ :=
    follow_unfollow_converges sampleDeps pairWorld (sampleUser "alice") (sampleUser "bob")
      [⟨true, "follow", Env.ok 1 2 "g"⟩, ⟨false, "follow", Env.ok 3 4 "g"⟩,
        ⟨true, "unfollow", Env.ok 5 6 "g"⟩]
      (by decide) (by decide) (by decide) (by decide) (by decide)
      (by
        intro s hs
        simp only [List.mem_cons, List.mem_singleton, List.not_mem_nil, or_false] at hs
        rcases hs with rfl | rfl | rfl <;> simp [FollowStep.Succeeds, Env.ok])
  exact ⟨A2, B2, h1, h2, h5, h6, h7⟩

/-! ## Following oneself, and absent targets -/

/-- C11: for every user A and every path parameter that resolves to A's own
record (its lower-cased form is A's key, so also a spelling that differs in
letter case only), a follow action is answered 400 and writes nothing: the
users collection, and with it A's `Following`, `Followers`, counters and
`Activities`, is unchanged, as are the files, the blobs and the queue.  With
both reads succeeding the reply is "Not allowed to follow yourself". -/
theorem follow_self_rejected (d : Deps) (e : Env) (req : user.ActionsRequest) (w : World)
    (t : String) (hbody : req.body = .decoded t)
    (hself : d.ToLower req.param = d.ToLower req.username) :
    (user.Actions d e req w).1.code = 400 ∧
      (user.Actions d e req w).2.users = w.users ∧
      (user.Actions d e req w).2.files = w.files ∧
      (user.Actions d e req w).2.blobs = w.blobs ∧
      (user.Actions d e req w).2.queue = w.queue ∧
      (∀ A, lookup w.users (d.ToLower req.username) = some A →
        e.getUserErr = false → e.getTargetErr = false →
        (user.Actions d e req w).1 = ⟨400, .verbose "Not allowed to follow yourself"⟩) := by
  simp only [user.Actions, GetByUsername_eq, hbody, hself]
  repeat' split
  all_goals (try simp_all)
  all_goals (try casesm* _ ∧ _)
  all_goals (try subst_vars)
  all_goals (try simp_all)
  intro A hA hu
  simp_all

/-- Witness for C11: alice asks to follow ALICE. -/
theorem follow_self_rejected_witness :
    (user.Actions sampleDeps (Env.ok 7 8 "g") ⟨"alice", .decoded "follow", "ALICE"⟩
        aliceWorld).1 = ⟨400, .verbose "Not allowed to follow yourself"⟩ ∧
      (user.Actions sampleDeps (Env.ok 7 8 "g") ⟨"alice", .decoded "follow", "ALICE"⟩
        aliceWorld).2.users = aliceWorld.users :=
  have h := follow_self_rejected sampleDeps (Env.ok 7 8 "g")
    ⟨"alice", .decoded "follow", "ALICE"⟩ aliceWorld "follow" rfl (by decide)
  ⟨h.2.2.2.2.2 (sampleUser "alice") (by decide) rfl rfl, h.2.1⟩

/-- The lookup of a key that holds nothing, the call succeeding. -/
theorem fileResult_of_lookup_none (e : Env) (fs : List (String × file.File)) (s : String)
    (h1 : lookup fs s = none) (h2 : e.getFileErr = none) :
    fileResult e fs s = .error .notFound := by
  simp [h1, h2]

/-- C12 (amended): an operation that references an absent aggregate is answered
400 Bad Request and mutates nothing.  A follow action whose target username has
no UserRecord leaves users, files, blobs and queue as they were, and so does a
`PostComment` whose hash has no FileRecord; with the preceding steps passing,
the replies are "Target user does not exist" and the text of the lookup
error. -/
theorem absent_target_rejected (d : Deps) (e : Env) (w : World) :
    (∀ (req : user.ActionsRequest) (t : String), req.body = .decoded t →
        lookup w.users (d.ToLower req.param) = none →
        (user.Actions d e req w).1.code = 400 ∧
        (user.Actions d e req w).2.users = w.users ∧
        (user.Actions d e req w).2.files = w.files ∧
        (user.Actions d e req w).2.blobs = w.blobs ∧
        (user.Actions d e req w).2.queue = w.queue ∧
        (∀ A, lookup w.users (d.ToLower req.username) = some A → e.getUserErr = false →
          (user.Actions d e req w).1 = ⟨400, .verbose "Target user does not exist"⟩)) ∧
      (∀ (req : file.PostCommentRequest), lookup w.files (d.ToLower req.sha256) = none →
        (file.PostComment d e req w).1.code = 400 ∧
        (file.PostComment d e req w).2.users = w.users ∧
        (file.PostComment d e req w).2.files = w.files ∧
        (file.PostComment d e req w).2.blobs = w.blobs ∧
        (file.PostComment d e req w).2.queue = w.queue ∧
        (∀ c, req.body = .decoded c → sha256regex (d.ToLower req.sha256) = true →
          e.getFileErr = none →
          (file.PostComment d e req w).1 = ⟨400, .text GetError.notFound.Error⟩)) := by
  constructor
  · intro req t hbody hnone
    simp only [user.Actions, GetByUsername_eq, hbody]
    repeat' split
    all_goals (try simp_all)
    all_goals (try casesm* _ ∧ _)
    all_goals (try subst_vars)
    all_goals (try simp_all)
    all_goals (intros; simp_all)
  · intro req hnone
    simp only [file.PostComment, GetByUsername_eq, GetFileBySHA256_eq, File.Save_eq]
    repeat' split
    all_goals (try simp_all)
    all_goals (try casesm* _ ∧ _)
    all_goals (try subst_vars)
    all_goals (try simp_all)
    all_goals (intros; simp_all [fileResult_of_lookup_none])

/-- Witness for C12 (amended): alice follows bob, who has no record, and
comments on a hash that has no record. -/
theorem absent_target_rejected_witness :
    (user.Actions sampleDeps (Env.ok 7 8 "g") ⟨"alice", .decoded "follow", "bob"⟩
        aliceWorld).1 = ⟨400, .verbose "Target user does not exist"⟩ ∧
      (file.PostComment sampleDeps (Env.ok 7 8 "g")
        ⟨sampleHash, .decoded ⟨none, "", "hello", ""⟩, "alice"⟩ aliceWorld).1 =
        ⟨400, .text "document not found"⟩ ∧
      (file.PostComment sampleDeps (Env.ok 7 8 "g")
        ⟨sampleHash, .decoded ⟨none, "", "hello", ""⟩, "alice"⟩ aliceWorld).2.files =
        aliceWorld.files :=
  have h := absent_target_rejected sampleDeps (Env.ok 7 8 "g") aliceWorld
  have h1 := h.1 ⟨"alice", .decoded "follow", "bob"⟩ "follow" rfl (by decide)
  have h2 := h.2 ⟨sampleHash, .decoded ⟨none, "", "hello", ""⟩, "alice"⟩ (by decide)
  ⟨h1.2.2.2.2.2 (sampleUser "alice") (by decide) rfl,
    h2.2.2.2.2.2 ⟨none, "", "hello", ""⟩ rfl (by decide) rfl, h2.2.2.1⟩

/-- C12 as stated fails: the follow of a user without record and the comment on
a hash without record are answered 400, not 404. -/
theorem absent_target_not_404 :
    lookup aliceWorld.users (sampleDeps.ToLower "bob") = none ∧
      (user.Actions sampleDeps (Env.ok 7 8 "g") ⟨"alice", .decoded "follow", "bob"⟩
        aliceWorld).1.code = 400 ∧
      (user.Actions sampleDeps (Env.ok 7 8 "g") ⟨"alice", .decoded "follow", "bob"⟩
        aliceWorld).1.code ≠ 404 ∧
      lookup aliceWorld.files (sampleDeps.ToLower sampleHash) = none ∧
      (file.PostComment sampleDeps (Env.ok 7 8 "g")
        ⟨sampleHash, .decoded ⟨none, "", "hello", ""⟩, "alice"⟩ aliceWorld).1.code = 400 ∧
      (file.PostComment sampleDeps (Env.ok 7 8 "g")
        ⟨sampleHash, .decoded ⟨none, "", "hello", ""⟩, "alice"⟩ aliceWorld).1.code ≠ 404 := by
  decide

/-! ## Follow and unfollow, repeated -/

/-- A name appended to a slice is in the slice. -/
theorem IsStringInSlice_append_self (a : String) (l : List String) :
    IsStringInSlice a (l ++ [a]) = true := by
  induction l with
  | nil => simp [IsStringInSlice]
  | cons b t ih =>
    by_cases h : b = a
    · simp [IsStringInSlice, h]
    · simp [IsStringInSlice, h, ih]

/-- Appending another name does not change whether a name is in the slice. -/
theorem IsStringInSlice_append_of_mem (a b : String) (l : List String)
    (h : IsStringInSlice a l = true) : IsStringInSlice a (l ++ [b]) = true := by
  induction l with
  | nil => simp [IsStringInSlice] at h
  | cons c t ih =>
    by_cases hc : c = a
    · simp [IsStringInSlice, hc]
    · simp only [IsStringInSlice, hc, if_false] at h
      simp [IsStringInSlice, hc, ih h]

/-- Removing a name that is not in the slice changes nothing. -/
theorem RemoveStringFromSlice_of_not_mem (a : String) (l : List String)
    (h : IsStringInSlice a l = false) : RemoveStringFromSlice l a = l := by
  induction l with
  | nil => rfl
  | cons c t ih =>
    by_cases hc : c = a
    · simp [IsStringInSlice, hc] at h
    · simp only [IsStringInSlice, hc, if_false] at h
      simp [RemoveStringFromSlice, hc, ih h]

/-- An upsert of the document a key already holds changes nothing. -/
theorem upsert_of_lookup {α : Type} (s : List (String × α)) (k : String) (v : α)
    (h : lookup s k = some v) : upsert s k v = s := by
  induction s with
  | nil => simp [lookup] at h
  | cons p t ih =>
    obtain ⟨k', v'⟩ := p
    by_cases hk : k' = k
    · subst hk
      simp only [lookup, if_true, Option.some.injEq] at h
      simp [upsert, h]
    · simp only [lookup, hk, if_false] at h
      simp [upsert, hk, ih h]

/-- C13 (amended): follow and unfollow are idempotent.  For every pair of
distinct existing users, each stored under its lower-cased username, a second
follow action right after a first one leaves the users collection, and so both
UserRecords, exactly as the first one left it (no second entry in `Following`
or `Followers`, no second increment, no second "follow" Activity); and an
unfollow action when the actor's `Following` does not list the target and the
target's `Followers` does not list the actor is answered 200 and leaves the
users collection unchanged. -/
theorem follow_unfollow_idempotent (d : Deps) (w : World) (name param : String)
    (A B : user.User)
    (hA : lookup w.users (d.ToLower name) = some A)
    (hB : lookup w.users (d.ToLower param) = some B)
    (hkA : d.ToLower A.Username = d.ToLower name)
    (hkB : d.ToLower B.Username = d.ToLower param)
    (hne : d.ToLower name ≠ d.ToLower param) :
    (∀ e1 e2 : Env,
        e1.getUserErr = false → e1.getTargetErr = false →
        e1.userSaveErr = false → e1.targetSaveErr = false →
        e2.getUserErr = false → e2.getTargetErr = false →
        (user.Actions d e1 ⟨name, .decoded "follow", param⟩ w).1.code = 200 ∧
        (user.Actions d e2 ⟨name, .decoded "follow", param⟩
          (user.Actions d e1 ⟨name, .decoded "follow", param⟩ w).2).1.code = 200 ∧
        (user.Actions d e2 ⟨name, .decoded "follow", param⟩
          (user.Actions d e1 ⟨name, .decoded "follow", param⟩ w).2).2.users =
          (user.Actions d e1 ⟨name, .decoded "follow", param⟩ w).2.users) ∧
      (∀ e : Env, e.getUserErr = false → e.getTargetErr = false →
        IsStringInSlice B.Username A.Following = false →
        IsStringInSlice A.Username B.Followers = false →
        (user.Actions d e ⟨name, .decoded "unfollow", param⟩ w).1 =
          ⟨200, .verbose "action success"⟩ ∧
        (user.Actions d e ⟨name, .decoded "unfollow", param⟩ w).2.users = w.users) := by
  have hab : A.Username ≠ B.Username := fun h => hne (by rw [← hkA, ← hkB, h])
  have hne2 : d.ToLower param ≠ d.ToLower name := fun h => hne h.symm
  constructor
  · intro e1 e2 h11 h12 h13 h14 h21 h22
    cases hin1 : IsStringInSlice B.Username A.Following <;>
      cases hin2 : IsStringInSlice A.Username B.Followers <;>
      simp [user.Actions, user.GetByUsername, user.User.Save, hA, hB, hkA, hkB, hab,
        h11, h12, h13, h14, h21, h22, hin1, hin2, lookup_upsert_self, lookup_upsert_of_ne,
        hne, hne2, IsStringInSlice_append_self]
  · intro e h1 h2 hin1 hin2
    have hB2 : lookup (upsert w.users (d.ToLower name) A) (d.ToLower param) = some B := by
      rw [lookup_upsert_of_ne _ _ _ _ hne2]
      exact hB
    cases h3 : e.userSaveErr <;> cases h4 : e.targetSaveErr <;>
      simp [user.Actions, user.GetByUsername, user.User.Save, hA, hB, hkA, hkB, hab,
        h1, h2, h3, h4, hin1, hin2, upsert_of_lookup, hB2]

/-- Witness for C13 (amended): alice follows bob twice, and unfollows bob
without following him. -/
theorem follow_unfollow_idempotent_witness :
    (user.Actions sampleDeps (Env.ok 3 4 "g") ⟨"alice", .decoded "follow", "bob"⟩
        (user.Actions sampleDeps (Env.ok 1 2 "g") ⟨"alice", .decoded "follow", "bob"⟩
          pairWorld).2).2.users =
        (user.Actions sampleDeps (Env.ok 1 2 "g") ⟨"alice", .decoded "follow", "bob"⟩
          pairWorld).2.users ∧
      (user.Actions sampleDeps (Env.ok 1 2 "g") ⟨"alice", .decoded "unfollow", "bob"⟩
        pairWorld).2.users = pairWorld.users :=
  have h := follow_unfollow_idempotent sampleDeps pairWorld "alice" "bob" (sampleUser "alice")
    (sampleUser "bob") (by decide) (by decide) (by decide) (by decide) (by decide)
  ⟨(h.1 (Env.ok 1 2 "g") (Env.ok 3 4 "g") rfl rfl rfl rfl rfl rfl).2.2,
    (h.2 (Env.ok 1 2 "g") rfl rfl (by decide) (by decide)).2⟩

/-- C13 as stated fails: alice is not following bob (her `Following` is empty),
her unfollow is answered 200, and the record of bob changes: the stale entry of
alice leaves his `Followers` and his `FollowersCount` goes from 1 to 0. -/
theorem unfollow_changes_stale_followers :
    (lookup staleWorld.users "alice").map user.User.Following = some [] ∧
      ((lookup staleWorld.users "bob").map user.User.Followers = some ["alice"] ∧
        (lookup staleWorld.users "bob").map user.User.FollowersCount = some 1) ∧
      (user.Actions sampleDeps (Env.ok 1 2 "g") ⟨"alice", .decoded "unfollow", "bob"⟩
        staleWorld).1.code = 200 ∧
      (lookup (user.Actions sampleDeps (Env.ok 1 2 "g") ⟨"alice", .decoded "unfollow", "bob"⟩
        staleWorld).2.users "bob").map user.User.Followers = some [] ∧
      (lookup (user.Actions sampleDeps (Env.ok 1 2 "g") ⟨"alice", .decoded "unfollow", "bob"⟩
        staleWorld).2.users "bob").map user.User.FollowersCount = some 0 := by
  decide

/-! ## Likes -/

/-- C14 fails on the code: alice, whose four counters equal the lengths of her
four lists, likes a file and then comments on it; the records written have one
like with `LikesCount = 0` and one comment with `CommentsCount = 0`. -/
theorem like_and_comment_leave_counters :
    ((lookup scannedWorld.users "alice").map
        (fun u => (u.FollowingCount, u.FollowersCount, u.LikesCount, u.CommentsCount)) =
        some (0, 0, 0, 0) ∧
      (lookup scannedWorld.users "alice").map
        (fun u => (u.Following.length, u.Followers.length, u.Likes.length, u.Comments.length)) =
        some (0, 0, 0, 0)) ∧
    ((file.Actions sampleDeps (Env.ok 7 8 "g") ⟨sampleHash, .decoded "like", "alice"⟩
        scannedWorld).1.code = 200 ∧
      (lookup (file.Actions sampleDeps (Env.ok 7 8 "g") ⟨sampleHash, .decoded "like", "alice"⟩
        scannedWorld).2.users "alice").map (fun u => (u.LikesCount, u.Likes.length)) =
        some (0, 1)) ∧
    ((file.PostComment sampleDeps (Env.ok 7 8 "g")
        ⟨sampleHash, .decoded ⟨none, "", "hello", ""⟩, "alice"⟩ scannedWorld).1.code = 200 ∧
      (lookup (file.PostComment sampleDeps (Env.ok 7 8 "g")
        ⟨sampleHash, .decoded ⟨none, "", "hello", ""⟩, "alice"⟩ scannedWorld).2.users
        "alice").map (fun u => (u.CommentsCount, u.Comments.length)) = some (0, 1)) := by
  decide

/-- The test `IsStringInSlice` is the membership test. -/
theorem IsStringInSlice_iff_mem (a : String) (l : List String) :
    IsStringInSlice a l = true ↔ a ∈ l := by
  induction l with
  | nil => simp [IsStringInSlice]
  | cons b t ih =>
    by_cases h : b = a
    · simp [IsStringInSlice, h]
    · simp [IsStringInSlice, h, ih, Ne.symm h]

/-- The test `IsStringInSlice` fails exactly on the names that are not in the
slice. -/
theorem IsStringInSlice_eq_false_iff (a : String) (l : List String) :
    IsStringInSlice a l = false ↔ a ∉ l := by
  rw [← IsStringInSlice_iff_mem]
  simp

/-- C15: for every user A, stored under her lower-cased username, whose `Likes`
does not contain h and every existing file h, the first like action appends h
to `A.Likes` and one "like" Activity whose content names h, and changes nothing
else of the record; a second like action right after leaves the users
collection as the first left it, so h occurs in `A.Likes` exactly once and
there is exactly one new Activity. -/
theorem like_twice_likes_once (d : Deps) (e1 e2 : Env) (req : file.ActionsRequest)
    (w : World) (A : user.User) (f : file.File)
    (hbody : req.body = .decoded "like")
    (hhash : sha256regex (d.ToLower req.sha256) = true)
    (hfile : lookup w.files (d.ToLower req.sha256) = some f)
    (hA : lookup w.users (d.ToLower req.username) = some A)
    (hkA : d.ToLower A.Username = d.ToLower req.username)
    (hnot : d.ToLower req.sha256 ∉ A.Likes)
    (h11 : e1.getFileErr = none) (h12 : e1.getUserErr = false)
    (h13 : e1.userSaveErr = false)
    (h21 : e2.getFileErr = none) (h22 : e2.getUserErr = false) :
    (file.Actions d e1 req w).1.code = 200 ∧
      lookup (file.Actions d e1 req w).2.users (d.ToLower req.username) =
        some { A with
          Likes := A.Likes ++ [d.ToLower req.sha256]
          Activities := A.Activities ++
            [⟨some e1.activityNow, "like", [("sha256", d.ToLower req.sha256)]⟩] } ∧
      (file.Actions d e2 req (file.Actions d e1 req w).2).1.code = 200 ∧
      (file.Actions d e2 req (file.Actions d e1 req w).2).2.users =
        (file.Actions d e1 req w).2.users ∧
      (A.Likes ++ [d.ToLower req.sha256]).count (d.ToLower req.sha256) = 1 := by
  have hin : IsStringInSlice (d.ToLower req.sha256) A.Likes = false :=
    (IsStringInSlice_eq_false_iff _ _).mpr hnot
  refine ⟨?_, ?_, ?_, ?_, ?_⟩
  · simp [file.Actions, file.GetFileBySHA256, user.GetByUsername, hbody, hhash, hfile, hA,
      h11, h12, hin]
  · simp [file.Actions, file.GetFileBySHA256, user.GetByUsername, user.User.Save,
      user.User.NewActivity, hbody, hhash, hfile, hA, hkA, h11, h12, h13, hin,
      lookup_upsert_self]
  · simp [file.Actions, file.GetFileBySHA256, user.GetByUsername, user.User.Save,
      user.User.NewActivity, hbody, hhash, hfile, hA, hkA, h11, h12, h13, h21, h22, hin,
      lookup_upsert_self, IsStringInSlice_append_self]
  · simp [file.Actions, file.GetFileBySHA256, user.GetByUsername, user.User.Save,
      user.User.NewActivity, hbody, hhash, hfile, hA, hkA, h11, h12, h13, h21, h22, hin,
      lookup_upsert_self, IsStringInSlice_append_self]
  · simp [List.count_append, List.count_eq_zero_of_not_mem hnot]

/-- Witness for C15: alice likes the file of `sampleHash` twice. -/
theorem like_twice_likes_once_witness :
    (file.Actions sampleDeps (Env.ok 9 10 "g") ⟨sampleHash, .decoded "like", "alice"⟩
        (file.Actions sampleDeps (Env.ok 7 8 "g") ⟨sampleHash, .decoded "like", "alice"⟩
          scannedWorld).2).2.users =
      (file.Actions sampleDeps (Env.ok 7 8 "g") ⟨sampleHash, .decoded "like", "alice"⟩
        scannedWorld).2.users :=
  (like_twice_likes_once sampleDeps (Env.ok 7 8 "g") (Env.ok 9 10 "g")
    ⟨sampleHash, .decoded "like", "alice"⟩ scannedWorld (sampleUser "alice")
    (sampleRecord file.finished) rfl (by decide) (by decide) (by decide) (by decide)
    (by decide) rfl rfl rfl rfl rfl).2.2.2.1

/-- C16: for a freshly registered user alice (no likes, `LikesCount = 0`),
stored under her lower-cased username, and an existing file H, a like action
followed by an unlike action leaves `alice.Likes` empty and `alice.LikesCount`
equal to 0. -/
theorem like_then_unlike_restores (d : Deps) (e1 e2 : Env) (sha256 username : String)
    (w : World) (A : user.User) (f : file.File)
    (hhash : sha256regex (d.ToLower sha256) = true)
    (hfile : lookup w.files (d.ToLower sha256) = some f)
    (hA : lookup w.users (d.ToLower username) = some A)
    (hkA : d.ToLower A.Username = d.ToLower username)
    (hfresh : A.Likes = [] ∧ A.LikesCount = 0)
    (h11 : e1.getFileErr = none) (h12 : e1.getUserErr = false)
    (h13 : e1.userSaveErr = false)
    (h21 : e2.getFileErr = none) (h22 : e2.getUserErr = false)
    (h23 : e2.userSaveErr = false) :
    (file.Actions d e1 ⟨sha256, .decoded "like", username⟩ w).1.code = 200 ∧
      (file.Actions d e2 ⟨sha256, .decoded "unlike", username⟩
        (file.Actions d e1 ⟨sha256, .decoded "like", username⟩ w).2).1.code = 200 ∧
      ∃ A2, lookup (file.Actions d e2 ⟨sha256, .decoded "unlike", username⟩
          (file.Actions d e1 ⟨sha256, .decoded "like", username⟩ w).2).2.users
          (d.ToLower username) = some A2 ∧
        A2.Likes = [] ∧ A2.LikesCount = 0 := by
  obtain ⟨hl, hc⟩ := hfresh
  simp [file.Actions, file.GetFileBySHA256, user.GetByUsername, user.User.Save,
    user.User.NewActivity, hhash, hfile, hA, hkA, h11, h12, h13, h21, h22, h23, hl, hc,
    lookup_upsert_self, IsStringInSlice, RemoveStringFromSlice]

/-- Witness for C16: alice likes and unlikes the file of `sampleHash`. -/
theorem like_then_unlike_restores_witness :
    ∃ A2, lookup (file.Actions sampleDeps (Env.ok 9 10 "g")
        ⟨sampleHash, .decoded "unlike", "alice"⟩
        (file.Actions sampleDeps (Env.ok 7 8 "g") ⟨sampleHash, .decoded "like", "alice"⟩
          scannedWorld).2).2.users "alice" = some A2 ∧
      A2.Likes = [] ∧ A2.LikesCount = 0 :=
  (like_then_unlike_restores sampleDeps (Env.ok 7 8 "g") (Env.ok 9 10 "g") sampleHash "alice"
    scannedWorld (sampleUser "alice") (sampleRecord file.finished) (by decide) (by decide)
    (by decide) (by decide) (by decide) rfl rfl rfl rfl rfl rfl).2.2

/-- The users collection after `User.Save`. -/
theorem user.User.Save_users (d : Deps) (b : Bool) (u : user.User) (w : World) :
    (user.User.Save d b u w).users =
      if b = true then w.users else upsert w.users (d.ToLower u.Username) u := by
  unfold user.User.Save
  cases b <;> rfl

/-- The write of an unlike action to the users collection: none, or the record
of the caller with another `Likes`. -/
theorem Actions_unlike_users (d : Deps) (e : Env) (req : file.ActionsRequest) (w : World)
    (hbody : req.body = .decoded "unlike") :
    (file.Actions d e req w).2.users = w.users ∨
      ∃ usr L, lookup w.users (d.ToLower req.username) = some usr ∧
        (file.Actions d e req w).2.users =
          upsert w.users (d.ToLower usr.Username) { usr with Likes := L } := by
  simp only [file.Actions, GetByUsername_eq, GetFileBySHA256_eq, Publish_eq, hbody]
  repeat' split
  all_goals (try simp_all)
  all_goals (try casesm* _ ∧ _)
  all_goals (try subst_vars)
  all_goals (try simp_all)
  cases hs : e.userSaveErr
  · right
    exact ⟨_, rfl⟩
  · left
    simp [user.User.Save_users, hs]

/-- An unlike action leaves files, blobs and queue as they were. -/
theorem Actions_unlike_rest (d : Deps) (e : Env) (req : file.ActionsRequest) (w : World)
    (hbody : req.body = .decoded "unlike") :
    (file.Actions d e req w).2.files = w.files ∧
      (file.Actions d e req w).2.blobs = w.blobs ∧
      (file.Actions d e req w).2.queue = w.queue := by
  simp only [file.Actions, GetByUsername_eq, GetFileBySHA256_eq, Publish_eq, hbody]
  repeat' split
  all_goals (try simp_all)
  all_goals (try casesm* _ ∧ _)
  all_goals (try subst_vars)
  all_goals (try simp_all)

/-- C17: in a users collection whose records are stored under their lower-cased
username, for every user, every hash and every outcome of the I/O calls, an
unlike action leaves the `Activities` of every user exactly as they were and
changes at most the `Likes` of the acting user: every other field of her
record, every other user, the files, the blobs and the queue are unchanged, and
no record is created. -/
theorem unlike_changes_likes_only (d : Deps) (e : Env) (req : file.ActionsRequest)
    (w : World) (hbody : req.body = .decoded "unlike") (hk : KeyedByName d w.users) :
    (file.Actions d e req w).2.files = w.files ∧
      (file.Actions d e req w).2.blobs = w.blobs ∧
      (file.Actions d e req w).2.queue = w.queue ∧
      (∀ k u, lookup w.users k = some u →
        ∃ u2, lookup (file.Actions d e req w).2.users k = some u2 ∧
          u2.Activities = u.Activities ∧
          u2 = { u with Likes := u2.Likes } ∧
          (k ≠ d.ToLower req.username → u2 = u)) ∧
      (∀ k, lookup w.users k = none →
        lookup (file.Actions d e req w).2.users k = none) := by
  obtain ⟨h1, h2, h3⟩ := Actions_unlike_rest d e req w hbody
  refine ⟨h1, h2, h3, ?_, ?_⟩
  · intro k u hu
    rcases Actions_unlike_users d e req w hbody with h | ⟨usr, L, husr, h⟩
    · rw [h]
      exact ⟨u, hu, rfl, rfl, fun _ => rfl⟩
    · rw [h, hk _ _ husr]
      by_cases hkk : k = d.ToLower req.username
      · subst hkk
        rw [husr] at hu
        cases hu
        exact ⟨_, lookup_upsert_self _ _ _, rfl, rfl, fun hne => absurd rfl hne⟩
      · rw [lookup_upsert_of_ne _ _ _ _ hkk]
        exact ⟨u, hu, rfl, rfl, fun _ => rfl⟩
  · intro k hnone
    rcases Actions_unlike_users d e req w hbody with h | ⟨usr, L, husr, h⟩
    · rw [h]
      exact hnone
    · rw [h, hk _ _ husr]
      by_cases hkk : k = d.ToLower req.username
      · subst hkk
        rw [husr] at hnone
        cases hnone
      · rw [lookup_upsert_of_ne _ _ _ _ hkk]
        exact hnone

/-- The two users of `scannedWorld` and of `commentedWorld` are stored under
their lower-cased names. -/
theorem sample_worlds_keyed :
    KeyedByName sampleDeps scannedWorld.users ∧ KeyedByName sampleDeps commentedWorld.users := by
  constructor
  · intro k u h
    simp only [scannedWorld, lookup] at h
    split at h
    · cases h
      subst_vars
      decide
    · cases h
  · intro k u h
    simp only [commentedWorld, lookup] at h
    split at h
    · cases h
      subst_vars
      decide
    · split at h
      · cases h
        subst_vars
        decide
      · cases h

/-- Witness for C17: alice unlikes the file of `sampleHash`, which she has not
liked. -/
theorem unlike_changes_likes_only_witness :
    KeyedByName sampleDeps scannedWorld.users ∧
      ∃ u2, lookup (file.Actions sampleDeps (Env.ok 7 8 "g")
          ⟨sampleHash, .decoded "unlike", "alice"⟩ scannedWorld).2.users "alice" = some u2 ∧
        u2.Activities = (sampleUser "alice").Activities := by
  obtain ⟨u2, h1, h2, _⟩ := (unlike_changes_likes_only sampleDeps (Env.ok 7 8 "g")
    ⟨sampleHash, .decoded "unlike", "alice"⟩ scannedWorld rfl sample_worlds_keyed.1).2.2.2.1
    "alice" (sampleUser "alice") (by decide)
  exact ⟨sample_worlds_keyed.1, u2, h1, h2⟩

/-! ## Comments -/

/-- C18: for every existing file (stored under its hash), every existing actor
(stored under the lower-cased username) and every valid comment body,
`PostComment` appends to the `Comments` of the FileRecord one comment with the
body of the request, the actor as `Username`, the generated identifier as `ID`
and the clock reading as `Timestamp`, whatever username, id or timestamp the
body supplied; appends to the `Comments` of the actor's UserRecord one copy
with the same ID, body and timestamp and the file hash; appends one "comment"
Activity to the actor; and replies 200 with the comment as stored on the file.
The reads and the three writes are taken to succeed. -/
theorem PostComment_appends (d : Deps) (e : Env) (req : file.PostCommentRequest)
    (w : World) (f : file.File) (A : user.User) (c : file.Comment)
    (hbody : req.body = .decoded c)
    (hhash : sha256regex (d.ToLower req.sha256) = true)
    (hfile : lookup w.files (d.ToLower req.sha256) = some f)
    (hkf : f.Sha256 = d.ToLower req.sha256)
    (hA : lookup w.users (d.ToLower req.username) = some A)
    (hkA : d.ToLower A.Username = d.ToLower req.username)
    (h1 : e.getFileErr = none) (h2 : e.getUserErr = false) (h3 : e.fileSaveErr = false)
    (h4 : e.userSaveErr = false) (h5 : e.userSave2Err = false) :
    (file.PostComment d e req w).1 =
        ⟨200, .comment ⟨some e.now, req.username, c.Body, e.guid⟩⟩ ∧
      lookup (file.PostComment d e req w).2.files (d.ToLower req.sha256) =
        some { f with
          Comments := f.Comments ++ [⟨some e.now, req.username, c.Body, e.guid⟩] } ∧
      lookup (file.PostComment d e req w).2.users (d.ToLower req.username) =
        some { A with
          Comments := A.Comments ++ [⟨some e.now, d.ToLower req.sha256, c.Body, e.guid⟩]
          Activities := A.Activities ++
            [⟨some e.activityNow, "comment",
              [("sha256", d.ToLower req.sha256), ("body", c.Body)]⟩] } := by
  simp [file.PostComment, file.GetFileBySHA256, user.GetByUsername, file.File.Save,
    user.User.Save, user.User.NewActivity, hbody, hhash, hfile, hkf, hA, hkA, h1, h2, h3,
    h4, h5, lookup_upsert_self]

/-- Witness for C18: alice comments on the file of `sampleHash` with a body
that names another author, id and timestamp. -/
theorem PostComment_appends_witness :
    (file.PostComment sampleDeps (Env.ok 7 8 "g")
        ⟨sampleHash, .decoded ⟨some 1, "bob", "hello", "mine"⟩, "alice"⟩ scannedWorld).1 =
      ⟨200, .comment ⟨some 7, "alice", "hello", "g"⟩⟩ :=
  (PostComment_appends sampleDeps (Env.ok 7 8 "g")
    ⟨sampleHash, .decoded ⟨some 1, "bob", "hello", "mine"⟩, "alice"⟩ scannedWorld
    (sampleRecord file.finished) (sampleUser "alice") ⟨some 1, "bob", "hello", "mine"⟩
    rfl (by decide) (by decide) (by decide) (by decide) (by decide) rfl rfl rfl rfl rfl).1

/-- C19: for every existing FileRecord none of whose comments is the zero value
`Comment{}` and every comment id, `DeleteComment` replies 404 if and only if no
comment of the record has that ID; in that case the record is not written (the
lookup is the one I/O call).  The lookup is taken to succeed. -/
theorem DeleteComment_not_found_iff (d : Deps) (e : Env) (req : file.DeleteCommentRequest)
    (w : World) (r : file.File)
    (hget : e.getFileErr = none)
    (hr : lookup w.files (d.ToLower req.sha256) = some r)
    (hz : file.Comment.zero ∉ r.Comments) :
    ((file.DeleteComment d e req w).1.code = 404 ↔ ∀ c ∈ r.Comments, c.ID ≠ req.id) ∧
      ((file.DeleteComment d e req w).1.code = 404 →
        (file.DeleteComment d e req w).2 = w.log (.fileGet (d.ToLower req.sha256))) := by
  cases hfind : r.Comments.find? (fun com => decide (com.ID = req.id)) with
  | none =>
    have hall : ∀ c ∈ r.Comments, c.ID ≠ req.id := by
      intro c hc
      have := List.find?_eq_none.mp hfind c hc
      simpa using this
    simp [file.DeleteComment, file.GetFileBySHA256, file.File.getByCommentID, hget, hr,
      hfind]
    exact hall
  | some c =>
    have hmem : c ∈ r.Comments := List.mem_of_find?_eq_some hfind
    have hid : c.ID = req.id := by simpa using List.find?_some hfind
    have hcz : ¬ file.Comment.zero = c := fun h => hz (h ▸ hmem)
    have hne : ¬ ∀ c ∈ r.Comments, c.ID ≠ req.id := fun h => h c hmem hid
    by_cases hu : c.Username = req.username
    · simp [file.DeleteComment, file.GetFileBySHA256, file.File.getByCommentID, hget, hr,
        hfind, hcz, hu]
      exact ⟨c, hmem, hid⟩
    · simp [file.DeleteComment, file.GetFileBySHA256, file.File.getByCommentID, hget, hr,
        hfind, hcz, hu]
      exact ⟨c, hmem, hid⟩

/-- Witness for C19: on the record with the one comment c1, the id c2 is
answered 404 and the id c1 is not. -/
theorem DeleteComment_not_found_iff_witness :
    (file.DeleteComment sampleDeps (Env.ok 7 8 "g") ⟨sampleHash, "c2", "alice"⟩
        commentedWorld).1.code = 404 ∧
      (file.DeleteComment sampleDeps (Env.ok 7 8 "g") ⟨sampleHash, "c1", "alice"⟩
        commentedWorld).1.code ≠ 404 := by
  have h1 := (DeleteComment_not_found_iff sampleDeps (Env.ok 7 8 "g")
    ⟨sampleHash, "c2", "alice"⟩ commentedWorld commentedRecord rfl (by decide) (by decide)).1
  have h2 := (DeleteComment_not_found_iff sampleDeps (Env.ok 7 8 "g")
    ⟨sampleHash, "c1", "alice"⟩ commentedWorld commentedRecord rfl (by decide) (by decide)).1
  exact ⟨h1.mpr (by decide), fun h => absurd (h2.mp h) (by decide)⟩

/-- C20: for every comment on a file whose author is A (the comment being the
only one of the record with its ID, and not the zero value `Comment{}`) and
every caller B other than A, `DeleteComment` replies 401, the comment is still
in the `Comments` of the FileRecord and the stores are unchanged: the lookup is
the one I/O call.  The handler does not read the admin claim of the token.  The
lookup is taken to succeed. -/
theorem DeleteComment_other_author (d : Deps) (e : Env) (req : file.DeleteCommentRequest)
    (w : World) (r : file.File) (c : file.Comment)
    (hget : e.getFileErr = none)
    (hr : lookup w.files (d.ToLower req.sha256) = some r)
    (hc : c ∈ r.Comments) (hid : c.ID = req.id)
    (huniq : ∀ c2 ∈ r.Comments, c2.ID = c.ID → c2 = c)
    (hz : c ≠ file.Comment.zero)
    (hu : c.Username ≠ req.username) :
    (file.DeleteComment d e req w).1 =
        ⟨401, .verbose "Not allowed to delete someone else comment"⟩ ∧
      (file.DeleteComment d e req w).2 = w.log (.fileGet (d.ToLower req.sha256)) ∧
      ∃ r2, lookup (file.DeleteComment d e req w).2.files (d.ToLower req.sha256) = some r2 ∧
        r2 = r ∧ c ∈ r2.Comments := by
  have hfind : r.Comments.find? (fun com => decide (com.ID = req.id)) = some c := by
    cases hf : r.Comments.find? (fun com => decide (com.ID = req.id)) with
    | none =>
      have := List.find?_eq_none.mp hf c hc
      simp [hid] at this
    | some c2 =>
      have hmem : c2 ∈ r.Comments := List.mem_of_find?_eq_some hf
      have hid2 : c2.ID = req.id := by simpa using List.find?_some hf
      rw [huniq c2 hmem (hid2.trans hid.symm)]
  have hcz : ¬ file.Comment.zero = c := fun h => hz h.symm
  simp [file.DeleteComment, file.GetFileBySHA256, file.File.getByCommentID, hget, hr,
    hfind, hcz, hu, hc]

/-- Witness for C20: bob asks to delete the comment c1 of alice. -/
theorem DeleteComment_other_author_witness :
    (file.DeleteComment sampleDeps (Env.ok 7 8 "g") ⟨sampleHash, "c1", "bob"⟩
        commentedWorld).1.code = 401 ∧
      (file.DeleteComment sampleDeps (Env.ok 7 8 "g") ⟨sampleHash, "c1", "bob"⟩
        commentedWorld).2.files = commentedWorld.files := by
  have h := DeleteComment_other_author sampleDeps (Env.ok 7 8 "g")
    ⟨sampleHash, "c1", "bob"⟩ commentedWorld commentedRecord ⟨some 5, "alice", "hello", "c1"⟩ rfl
    (by decide) (by decide) rfl (by decide) (by decide) (by decide)
  rw [h.1, h.2.1]
  exact ⟨rfl, rfl⟩

/-! ## DeleteComment: what a deletion stores -/

/-- Where a list holds a comment of the given ID, `removeFirst` removes the
first one and `find?` returns it. -/
theorem removeFirst_spec (commentID : String) (l : List file.Comment)
    (h : ∃ c ∈ l, c.ID = commentID) :
    ∃ l1 c l2, l = l1 ++ c :: l2 ∧ c.ID = commentID ∧ (∀ x ∈ l1, x.ID ≠ commentID) ∧
      file.removeFirst commentID l = some (l1 ++ l2) ∧
      l.find? (fun com => decide (com.ID = commentID)) = some c := by
  induction l with
  | nil => simp at h
  | cons a t ih =>
    by_cases ha : a.ID = commentID
    · exact ⟨[], a, t, rfl, ha, by simp, by simp [file.removeFirst, ha], by simp [ha]⟩
    · have ht : ∃ c ∈ t, c.ID = commentID := by
        obtain ⟨c, hc, hid⟩ := h
        rcases List.mem_cons.mp hc with rfl | hc
        · exact absurd hid ha
        · exact ⟨c, hc, hid⟩
      obtain ⟨l1, c, l2, hl, hid, hbefore, hrem, hfind⟩ := ih ht
      refine ⟨a :: l1, c, l2, by simp [hl], hid, ?_, ?_, ?_⟩
      · intro x hx
        rcases List.mem_cons.mp hx with rfl | hx
        · exact ha
        · exact hbefore x hx
      · simp [file.removeFirst, ha, hrem]
      · simp [List.find?, ha, hfind]

/-- C21: for every file whose `Comments` contain a comment with the given ID
authored by the caller, a successful `DeleteComment` (reply 200, the upsert of
the file document succeeding) stores `Comments` equal to the previous list with
exactly the first comment of that ID removed, all other comments kept in their
order, leaves every other field of the FileRecord unchanged and writes no
UserRecord: the users collection is the same and the calls made are the lookup
and the upsert of the file document.  The removed comment is the caller's. -/
theorem DeleteComment_removes_first (d : Deps) (e : Env) (req : file.DeleteCommentRequest)
    (w : World) (r : file.File)
    (hr : lookup w.files (d.ToLower req.sha256) = some r)
    (hkey : r.Sha256 = d.ToLower req.sha256)
    (hc : ∃ c ∈ r.Comments, c.ID = req.id ∧ c.Username = req.username)
    (hsave : e.fileSaveErr = false)
    (hok : (file.DeleteComment d e req w).1.code = 200) :
    ∃ l1 c l2, r.Comments = l1 ++ c :: l2 ∧ c.ID = req.id ∧ c.Username = req.username ∧
      (∀ x ∈ l1, x.ID ≠ req.id) ∧
      lookup (file.DeleteComment d e req w).2.files (d.ToLower req.sha256) =
        some { r with Comments := l1 ++ l2 } ∧
      (file.DeleteComment d e req w).2.users = w.users ∧
      (file.DeleteComment d e req w).2.trace =
        w.trace ++ [.fileGet (d.ToLower req.sha256), .fileUpsert (d.ToLower req.sha256)] := by
  obtain ⟨c0, hc0, hid0, _⟩ := hc
  obtain ⟨l1, c, l2, hl, hid, hbefore, hrem, hfind⟩ :=
    removeFirst_spec req.id r.Comments ⟨c0, hc0, hid0⟩
  have hget : e.getFileErr = none := by
    cases hg : e.getFileErr with
    | none => rfl
    | some msg => simp [file.DeleteComment, file.GetFileBySHA256, hg] at hok
  have hz : ¬ file.Comment.zero = c := by
    intro hzc
    simp [file.DeleteComment, file.GetFileBySHA256, file.File.getByCommentID, hget, hr,
      hfind, hzc.symm] at hok
  have hu : c.Username = req.username := by
    by_contra hne
    simp [file.DeleteComment, file.GetFileBySHA256, file.File.getByCommentID, hget, hr,
      hfind, hz, hne] at hok
  refine ⟨l1, c, l2, hl, hid, hu, hbefore, ?_, ?_, ?_⟩ <;>
    simp [file.DeleteComment, file.GetFileBySHA256, file.File.getByCommentID, hget, hr,
      hfind, hz, hu, hrem, file.File.Save, hsave, hkey, lookup_upsert_self, World.log]

/-- Witness for C21: alice deletes her comment k2 from a record that holds two
comments under that ID, between two comments of bob. -/
theorem DeleteComment_removes_first_witness :
    ∃ l1 c l2, threadRecord.Comments = l1 ++ c :: l2 ∧ c.ID = "k2" ∧
      c.Username = "alice" ∧ (∀ x ∈ l1, x.ID ≠ "k2") ∧
      lookup (file.DeleteComment sampleDeps (Env.ok 7 8 "g") ⟨sampleHash, "k2", "alice"⟩
        threadWorld).2.files (sampleDeps.ToLower sampleHash) =
        some { threadRecord with Comments := l1 ++ l2 } ∧
      (file.DeleteComment sampleDeps (Env.ok 7 8 "g") ⟨sampleHash, "k2", "alice"⟩
        threadWorld).2.users = threadWorld.users ∧
      (file.DeleteComment sampleDeps (Env.ok 7 8 "g") ⟨sampleHash, "k2", "alice"⟩
        threadWorld).2.trace =
        threadWorld.trace ++ [.fileGet (sampleDeps.ToLower sampleHash),
          .fileUpsert (sampleDeps.ToLower sampleHash)] :=
  DeleteComment_removes_first sampleDeps (Env.ok 7 8 "g") ⟨sampleHash, "k2", "alice"⟩
    threadWorld threadRecord rfl (by decide)
    ⟨⟨some 7, "alice", "third", "k2"⟩, by decide, rfl, rfl⟩ rfl (by decide)

/-! ## Usernames: one record per lower-cased name -/

/-- An upsert under a key leaves the number of entries of every other key as it
was. -/
theorem countKey_upsert_of_ne {α : Type} (s : List (String × α)) (k k2 : String) (v : α)
    (h : k2 ≠ k) : countKey (upsert s k v) k2 = countKey s k2 := by
  induction s with
  | nil => simp [countKey, upsert, Ne.symm h]
  | cons p t ih =>
    obtain ⟨k', v'⟩ := p
    simp only [countKey] at ih
    by_cases h1 : k' = k
    · subst h1
      simp [countKey, upsert, List.filter_cons, Ne.symm h]
    · by_cases h2 : k' = k2
      · subst h2
        simp [countKey, upsert, List.filter_cons, h1, ih]
      · simp [countKey, upsert, List.filter_cons, h1, h2, ih]

/-- An upsert keeps a collection free of duplicate keys, and leaves exactly one
entry under its key. -/
theorem countKey_upsert_le_one {α : Type} (s : List (String × α)) (k : String) (v : α)
    (h : ∀ k2, countKey s k2 ≤ 1) :
    (∀ k2, countKey (upsert s k v) k2 ≤ 1) ∧ countKey (upsert s k v) k = 1 := by
  have hk : countKey (upsert s k v) k = 1 := by
    have := h k
    rcases Nat.le_one_iff_eq_zero_or_eq_one.mp this with h0 | h1
    · exact countKey_upsert_of_zero s k v h0
    · exact countKey_upsert_of_one s k v h1
  refine ⟨fun k2 => ?_, hk⟩
  by_cases h2 : k2 = k
  · rw [h2, hk]
  · rw [countKey_upsert_of_ne s k k2 v h2]
    exact h k2

/-- C22: usernames are case-insensitive with a lower-case canonical key.  For
all strings `u` and `v` with the same lower-case form, after `User.Save` of a
record whose `Username` is `u`, `GetByUsername v` returns that record; saving
two records whose usernames have the same lower-case form writes the same
document key, the second replacing the first; and a collection with at most
one document per key stays so, with exactly one under the lower-cased username
(the store calls are taken to succeed). -/
theorem username_case_insensitive (d : Deps) (w : World) (r r2 : user.User) (v : String)
    (hv : d.ToLower v = d.ToLower r.Username)
    (h2 : d.ToLower r2.Username = d.ToLower r.Username)
    (huniq : ∀ k, countKey w.users k ≤ 1) :
    (user.GetByUsername d false v (user.User.Save d false r w)).1 = some r ∧
      (user.User.Save d false r w).trace = w.trace ++ [.userUpsert (d.ToLower r.Username)] ∧
      (user.User.Save d false r2 w).trace = w.trace ++ [.userUpsert (d.ToLower r.Username)] ∧
      (user.GetByUsername d false v
        (user.User.Save d false r2 (user.User.Save d false r w))).1 = some r2 ∧
      (∀ k, countKey (user.User.Save d false r2 (user.User.Save d false r w)).users k ≤ 1) ∧
      countKey (user.User.Save d false r2 (user.User.Save d false r w)).users
        (d.ToLower r.Username) = 1 := by
  have h1 := countKey_upsert_le_one w.users (d.ToLower r.Username) r huniq
  have h3 := countKey_upsert_le_one (upsert w.users (d.ToLower r.Username) r)
    (d.ToLower r.Username) r2 h1.1
  refine ⟨?_, ?_, ?_, ?_, ?_, ?_⟩
  · simp [user.GetByUsername, user.User.Save_users, hv, lookup_upsert_self]
  · simp [user.User.Save, World.log]
  · simp [user.User.Save, World.log, h2]
  · simp [user.GetByUsername, user.User.Save_users, hv, h2, lookup_upsert_self]
  · simpa [user.User.Save_users, h2] using h3.1
  · simpa [user.User.Save_users, h2] using h3.2

/-- Witness for C22: in a world that holds alice, the records of "Bob" and
"BOB" are saved one after the other and read back as "bOb". -/
theorem username_case_insensitive_witness :
    (user.GetByUsername sampleDeps false "bOb"
        (user.User.Save sampleDeps false (sampleUser "BOB")
          (user.User.Save sampleDeps false (sampleUser "Bob") aliceWorld))).1 =
        some (sampleUser "BOB") ∧
      countKey (user.User.Save sampleDeps false (sampleUser "BOB")
        (user.User.Save sampleDeps false (sampleUser "Bob") aliceWorld)).users "bob" = 1 := by
  have h := username_case_insensitive sampleDeps aliceWorld (sampleUser "Bob")
    (sampleUser "BOB") "bOb" (by decide) (by decide)
    (by
      intro k
      by_cases hk : k = "alice"
      · subst hk; decide
      · have : ("alice" = k) = False := by simpa using fun h => hk h.symm
        simp [countKey, aliceWorld, List.filter_cons, this])
  exact ⟨h.2.2.2.1, h.2.2.2.2.2⟩

/-! ## PostUsers: what a registration stores -/

/-- The record `PostUsers` builds from a decoded body. -/
theorem PostUsers_users (d : Deps) (e : AccountEnv) (b : user.User) (w : World) :
    (user.PostUsers d e ⟨.decoded b⟩ w).2.users = w.users ∨
      (user.PostUsers d e ⟨.decoded b⟩ w).2.users =
        upsert w.users (d.ToLower b.Username)
          { b with
            Password := user.HashAndSalt e b.Password, Name := "", MemberSince := some e.now,
            Confirmed := false, Bio := "", URL := "", Location := "",
            LastSeen := some e.now, Following := [], Followers := [], Likes := [],
            Comments := [], Submissions := [], Activities := [], HasAvatar := false,
            Admin := false, Email := d.ToLower b.Email } := by
  simp only [user.PostUsers, GetByUsername_eq]
  repeat' split
  all_goals (try simp_all)
  all_goals (simp [user.User.Save_users]; cases e.userSaveErr <;> simp)

/-- C23: for every schema-valid registration body, whatever values it supplies
for confirmed, admin, has_avatar, following, followers, likes, comments,
submissions or activities, the UserRecord stored by `PostUsers` has `Confirmed =
false`, `Admin = false`, `HasAvatar = false`, empty `Following`, `Followers`,
`Likes`, `Comments`, `Submissions` and `Activities`, and a lower-cased `Email`:
the users collection is left as it was or receives exactly that record under
the lower-cased username, and after a reply 201 with the upsert succeeding the
record is the one stored there. -/
theorem PostUsers_resets_privileges (d : Deps) (e : AccountEnv) (b : user.User) (w : World) :
    ∃ r : user.User,
      r.Confirmed = false ∧ r.Admin = false ∧ r.HasAvatar = false ∧ r.Following = [] ∧
      r.Followers = [] ∧ r.Likes = [] ∧ r.Comments = [] ∧ r.Submissions = [] ∧
      r.Activities = [] ∧ r.Email = d.ToLower b.Email ∧ r.Username = b.Username ∧
      ((user.PostUsers d e ⟨.decoded b⟩ w).2.users = w.users ∨
        (user.PostUsers d e ⟨.decoded b⟩ w).2.users =
          upsert w.users (d.ToLower b.Username) r) ∧
      ((user.PostUsers d e ⟨.decoded b⟩ w).1.code = 201 → e.userSaveErr = false →
        lookup (user.PostUsers d e ⟨.decoded b⟩ w).2.users (d.ToLower b.Username) =
          some r) := by
  refine ⟨{ b with
      Password := user.HashAndSalt e b.Password, Name := "", MemberSince := some e.now,
      Confirmed := false, Bio := "", URL := "", Location := "",
      LastSeen := some e.now, Following := [], Followers := [], Likes := [],
      Comments := [], Submissions := [], Activities := [], HasAvatar := false,
      Admin := false, Email := d.ToLower b.Email },
    rfl, rfl, rfl, rfl, rfl, rfl, rfl, rfl, rfl, rfl, rfl, PostUsers_users d e b w, ?_⟩
  intro hcode hsave
  simp only [user.PostUsers, GetByUsername_eq] at hcode ⊢
  repeat' split
  all_goals (try simp_all)
  all_goals (simp [user.User.Save_users, lookup_upsert_self])

/-- Witness for C23: the body of Mallory asks for every privilege; the record
stored under "mallory" has none of them and the e-mail address in lower case. -/
theorem PostUsers_resets_privileges_witness :
    (user.PostUsers sampleDeps (AccountEnv.ok 7 "h:secret" "tok") ⟨.decoded greedyBody⟩
        aliceWorld).1.code = 201 ∧
      ∃ r : user.User,
        lookup (user.PostUsers sampleDeps (AccountEnv.ok 7 "h:secret" "tok")
          ⟨.decoded greedyBody⟩ aliceWorld).2.users "mallory" = some r ∧
        r.Confirmed = false ∧ r.Admin = false ∧ r.HasAvatar = false ∧ r.Following = [] ∧
        r.Followers = [] ∧ r.Likes = [] ∧ r.Comments = [] ∧ r.Submissions = [] ∧
        r.Activities = [] ∧ r.Email = "mallory@example.com" := by
  obtain ⟨r, h1, h2, h3, h4, h5, h6, h7, h8, h9, h10, _, _, hstored⟩ :=
    PostUsers_resets_privileges sampleDeps (AccountEnv.ok 7 "h:secret" "tok") greedyBody
      aliceWorld
  exact ⟨by decide, r, hstored (by decide) rfl, h1, h2, h3, h4, h5, h6, h7, h8, h9,
    by rw [h10]; decide⟩

/-! ## Writes are unconditional upserts -/

/-- The handler `Actions` is its two reads followed by `ActionsAfterReads`. -/
theorem Actions_eq_afterReads (d : Deps) (e : Env) (req : user.ActionsRequest) (w : World)
    (A T : user.User) (actionType : String)
    (hu : e.getUserErr = false) (ht : e.getTargetErr = false)
    (hbody : req.body = .decoded actionType)
    (hA : lookup w.users (d.ToLower req.username) = some A)
    (hT : lookup w.users (d.ToLower req.param) = some T)
    (hne : A.Username ≠ T.Username) :
    user.Actions d e req w =
      user.ActionsAfterReads d e actionType A T
        ((w.log (.userGet (d.ToLower req.username))).log (.userGet (d.ToLower req.param))) := by
  simp [user.Actions, user.ActionsAfterReads, GetByUsername_eq, hu, ht, hbody, hA, hT, hne]

/-- C24 (amended): every write of a UserRecord or FileRecord is an
unconditional upsert of the whole document under its key: when the store call
succeeds the key holds the saved document whatever the collection held, and
when it fails the collection is as it was and nothing is retried.  So when two
follow Actions by the actors `a` and `b` on one target both read the target
before either writes, the later write replaces the earlier: the target's
stored `Followers` are the ones read followed by the later actor alone, and
`FollowersCount` is the one read plus 1. -/
theorem saves_are_unconditional (d : Deps) (e1 e2 : Env) (a b target : String) (w : World)
    (A B T : user.User) (u : user.User) (f : file.File)
    (hr1 : e1.getUserErr = false ∧ e1.getTargetErr = false)
    (hr2 : e2.getUserErr = false ∧ e2.getTargetErr = false)
    (hs2 : e2.targetSaveErr = false)
    (hA : lookup w.users (d.ToLower a) = some A)
    (hB : lookup w.users (d.ToLower b) = some B)
    (hT : lookup w.users (d.ToLower target) = some T)
    (hAT : A.Username ≠ T.Username) (hBT : B.Username ≠ T.Username)
    (hnew : IsStringInSlice B.Username T.Followers = false) :
    (user.User.Save d false u w).users = upsert w.users (d.ToLower u.Username) u ∧
      (user.User.Save d true u w).users = w.users ∧
      (file.File.Save e1 f w).2.files =
        (if e1.fileSaveErr then w.files else upsert w.files f.Sha256 f) ∧
      ∃ w2, concurrentFollows d e1 e2 a b target w = some w2 ∧
        lookup w2.users (d.ToLower T.Username) =
          some { T with
            Followers := T.Followers ++ [B.Username],
            FollowersCount := T.FollowersCount + 1 } := by
  refine ⟨by simp [user.User.Save_users], by simp [user.User.Save_users], ?_, ?_⟩
  · rw [File.Save_eq]
    cases e1.fileSaveErr <;> simp
  · cases hfa : IsStringInSlice T.Username A.Following <;>
      cases hfb : IsStringInSlice T.Username B.Following <;>
      cases hfc : IsStringInSlice A.Username T.Followers <;>
      simp [concurrentFollows, GetByUsername_eq, hr1.1, hr1.2, hr2.1, hr2.2, hA, hB, hT, hAT,
        hBT, user.ActionsAfterReads, hnew, hs2, hfa, hfb, hfc, user.User.Save_users,
        lookup_upsert_self]

/-- Witness for C24 (amended): alice and bob follow carol at the same time; the
record of carol ends with bob as its one follower. -/
theorem saves_are_unconditional_witness :
    ∃ w2, concurrentFollows sampleDeps (Env.ok 1 1 "") (Env.ok 2 2 "") "alice" "bob" "carol"
        crowdWorld = some w2 ∧
      lookup w2.users "carol" =
        some { sampleUser "carol" with Followers := ["bob"], FollowersCount := 1 } :=
  (saves_are_unconditional sampleDeps (Env.ok 1 1 "") (Env.ok 2 2 "") "alice" "bob" "carol"
    crowdWorld (sampleUser "alice") (sampleUser "bob") (sampleUser "carol")
    (sampleUser "alice") file.File.zero ⟨rfl, rfl⟩ ⟨rfl, rfl⟩ rfl rfl rfl rfl
    (by decide) (by decide) rfl).2.2.2

/-- C24 fails as stated: when alice and bob follow carol, served one after the
other the two Actions leave both in the `Followers` of carol with
`FollowersCount` 2, while served at the same time, both reading before either
writes, they leave bob alone with `FollowersCount` 1: the update of alice is
lost. -/
theorem concurrent_follows_lose_update :
    ((lookup (user.Actions sampleDeps (Env.ok 2 2 "") ⟨"bob", .decoded "follow", "carol"⟩
        (user.Actions sampleDeps (Env.ok 1 1 "") ⟨"alice", .decoded "follow", "carol"⟩
          crowdWorld).2).2.users "carol").map
        (fun u => (u.Followers, u.FollowersCount)) = some (["alice", "bob"], 2)) ∧
      (((concurrentFollows sampleDeps (Env.ok 1 1 "") (Env.ok 2 2 "") "alice" "bob" "carol"
        crowdWorld).bind (fun w2 => lookup w2.users "carol")).map
        (fun u => (u.Followers, u.FollowersCount)) = some (["bob"], 1)) := by
  decide

/-! ## email.Send -/

/-- C25 (amended): for the template names "confirm" and "reset", and every
username, link, recipient and SMTP configuration, `email.Send` returns exactly
when rendering, the file writes and reads and the delivery all succeed, the
SMTP configuration is complete and the recipient is not empty; every failure
ends the call with a panic that carries the error of the first failing step
and leaves `Send`: an incomplete SMTP configuration or an empty recipient
panics with the error of `send`. -/
theorem Send_panics_on_failure (smtpConfig : email.SMTPConfig) (e : email.MailEnv)
    (username link recipient templateToUse subject : String)
    (ht : templateToUse = "confirm" ∨ templateToUse = "reset") :
    (email.Send smtpConfig e username link recipient templateToUse = .returned ↔
        e = email.MailEnv.ok ∧ smtpConfig.Server ≠ "" ∧ smtpConfig.Port ≠ 0 ∧
          smtpConfig.SMTPUser ≠ "" ∧ smtpConfig.SenderIdentity ≠ "" ∧
          smtpConfig.SenderEmail ≠ "" ∧ recipient ≠ "") ∧
      (∀ msg,
        (e.generateHTMLErr <|> e.mkdirErr <|> e.writeHTMLErr <|> e.generatePlainTextErr <|>
          e.writeTextErr <|> e.readHTMLErr <|> e.readTextErr <|>
          email.send smtpConfig e ⟨recipient, subject⟩) = some msg →
        email.Send smtpConfig e username link recipient templateToUse = .panicked msg) := by
  obtain ⟨g, m, wh, gp, wt, rh, rt, ds⟩ := e
  rcases ht with rfl | rfl
  all_goals (cases g <;> simp [email.Send, email.generateEmails, email.MailEnv.ok])
  all_goals (cases m <;> simp)
  all_goals (cases wh <;> simp)
  all_goals (cases gp <;> simp)
  all_goals (cases wt <;> simp)
  all_goals (cases rh <;> simp)
  all_goals (cases rt <;> simp)
  all_goals (simp only [email.send]; repeat' split)
  all_goals simp_all

/-- Witness for C25 (amended): with a complete configuration and every step
succeeding the confirmation mail is sent and `Send` returns; without an SMTP
server the reset mail ends in the panic of that error. -/
theorem Send_panics_on_failure_witness :
    email.Send fullSMTP email.MailEnv.ok "alice" "https://l" "alice@example" "confirm" =
        .returned ∧
      email.Send bareSMTP email.MailEnv.ok "alice" "https://l" "alice@example" "reset" =
        .panicked "SMTP server config is empty" :=
  ⟨(Send_panics_on_failure fullSMTP email.MailEnv.ok "alice" "https://l" "alice@example"
      "confirm" "" (Or.inl rfl)).1.mpr
      ⟨rfl, by decide, by decide, by decide, by decide, by decide, by decide⟩,
    (Send_panics_on_failure bareSMTP email.MailEnv.ok "alice" "https://l" "alice@example"
      "reset" "" (Or.inr rfl)).2 "SMTP server config is empty" (by decide)⟩

/-- C25 fails as stated: with the template "confirm", an SMTP configuration
without a server ends `Send` in a panic, and so do a failed rendering and a
failed delivery under a complete configuration. -/
theorem Send_panics_without_server :
    email.Send bareSMTP email.MailEnv.ok "alice" "https://l" "alice@example" "confirm" =
        .panicked "SMTP server config is empty" ∧
      email.Send fullSMTP { email.MailEnv.ok with generateHTMLErr := some "bad template" }
        "alice" "https://l" "alice@example" "confirm" = .panicked "bad template" ∧
      email.Send fullSMTP { email.MailEnv.ok with dialAndSendErr := some "connection refused" }
        "alice" "https://l" "alice@example" "confirm" = .panicked "connection refused" := by
  decide

/-! ## ScanFileFromObjectStorage on a parameter that is no hash -/

/-- C26, evaluated on the code: for the path parameter "not-a-hash" the handler
`ScanFileFromObjectStorage` gives no reply: building the 400 answer it panics,
calling `Error` on the nil error of `regexp.MatchString`; the stores and the
queue are as they were.  On the same parameter the handler `Actions` replies
400 with the message "Invalid sha256". -/
theorem ScanFileFromObjectStorage_panics_on_bad_hash :
    file.ScanFileFromObjectStorage sampleDeps (Env.ok 7 8 "g") ⟨"not-a-hash", "FR"⟩
        aliceWorld = (none, aliceWorld) ∧
      file.Actions sampleDeps (Env.ok 7 8 "g") ⟨"not-a-hash", .decoded "rescan", "alice"⟩
        aliceWorld =
        (⟨400, .response ⟨"not-a-hash", "Invalid sha256", "File hash is not a sha256 hash",
          ""⟩⟩, aliceWorld) := by
  decide

/-! ## CustomBinder.Bind -/

/-- C27 (amended): for every request with non-zero `ContentLength`, when the
underlying binder returns an error other than `echo.ErrUnsupportedMediaType`,
`Bind` returns that error and does not call `Validate`; when the binder
succeeds or returns `echo.ErrUnsupportedMediaType`, `Bind` calls `Validate` on
the target and returns its result.  For a request with `ContentLength` 0 it
returns the BadRequest error "You have sent an empty body." without binding or
validating. -/
theorem Bind_validates_unless_bind_fails (req : server.BindRequest) :
    (req.ContentLength = 0 →
        server.CustomBinder.Bind req =
          (some (.BadRequest "You have sent an empty body."), [])) ∧
      (req.ContentLength ≠ 0 → ∀ msg, req.bindErr = some (.other msg) →
        server.CustomBinder.Bind req = (some (.binder (.other msg)), [.bind])) ∧
      (req.ContentLength ≠ 0 →
        req.bindErr = none ∨ req.bindErr = some .ErrUnsupportedMediaType →
        server.CustomBinder.Bind req =
          (req.validateErr.map server.BindError.validation, [.bind, .validate])) := by
  refine ⟨fun h => by simp [server.CustomBinder.Bind, h, server.errEmptyBody],
    fun h msg hb => by simp [server.CustomBinder.Bind, h, hb], fun h hb => ?_⟩
  rcases hb with hb | hb <;> simp [server.CustomBinder.Bind, h, hb]

/-- Witness for C27 (amended): an empty body, a body the binder rejects as
malformed, and a body of an unsupported media type whose target validates. -/
theorem Bind_validates_unless_bind_fails_witness :
    server.CustomBinder.Bind ⟨0, none, none⟩ =
        (some (.BadRequest "You have sent an empty body."), []) ∧
      server.CustomBinder.Bind ⟨12, some (.other "malformed"), none⟩ =
        (some (.binder (.other "malformed")), [.bind]) ∧
      server.CustomBinder.Bind ⟨12, some .ErrUnsupportedMediaType, none⟩ =
        (none, [.bind, .validate]) :=
  ⟨(Bind_validates_unless_bind_fails ⟨0, none, none⟩).1 rfl,
    (Bind_validates_unless_bind_fails ⟨12, some (.other "malformed"), none⟩).2.1
      (by decide) "malformed" rfl,
    (Bind_validates_unless_bind_fails ⟨12, some .ErrUnsupportedMediaType, none⟩).2.2
      (by decide) (Or.inr rfl)⟩

/-- C27 fails as stated: for a request of 12 bytes whose binding fails with
`echo.ErrUnsupportedMediaType`, `Bind` does not return that error: it calls
`Validate` on the target, which was not bound, and returns nil when the
validation passes. -/
theorem Bind_validates_after_unsupported_media_type :
    server.CustomBinder.Bind ⟨12, some .ErrUnsupportedMediaType, none⟩ =
      (none, [.bind, .validate]) := by
  decide

/-! ## Token purposes -/

/-- C28: token purposes are not interchangeable.  For every token whose
`Purpose` claim is not "confirm-email", `auth.Confirm` leaves the world as it
was (no store call, no UserRecord written, so no `Confirmed` flag set) and
replies 400; for every token whose `Purpose` claim is not "reset-password",
`auth.NewPassword` leaves the world as it was (no password changed) and replies
400.  The reply 400 is for a request that carries a token: with an empty
`token` parameter both handlers have answered 404 before they look at the
purpose. -/
theorem token_purposes_not_interchangeable (d : AuthDeps) (e : AccountEnv) (w : World)
    (cr : auth.ConfirmRequest) (nr : auth.NewPasswordRequest) :
    (cr.Purpose ≠ "confirm-email" →
        (auth.Confirm d e cr w).2 = w ∧
        (cr.token ≠ "" → (auth.Confirm d e cr w).1 =
          .json 400 (.verbose "You provided an invalid token type!"))) ∧
      (nr.Purpose ≠ "reset-password" →
        (auth.NewPassword d e nr w).2 = w ∧
        (nr.token ≠ "" → (auth.NewPassword d e nr w).1 =
          .json 400 (.verbose "You provided an invalid token type!"))) := by
  constructor
  · intro hp
    by_cases ht : cr.token = "" <;> simp [auth.Confirm, ht, hp]
  · intro hp
    by_cases ht : nr.token = "" <;> simp [auth.NewPassword, ht, hp]

/-- Witness for C28: a reset-password token of erin, who is not confirmed,
given to `Confirm`, and a confirm-email token of dave given to `NewPassword`
with the new password "new": both are answered 400 and the records of erin and
dave are as they were.  With the right purposes the same requests confirm erin
and are answered 200. -/
theorem token_purposes_not_interchangeable_witness :
    ((auth.Confirm sampleAuthDeps (AccountEnv.ok 9 "h:new" "tok")
        ⟨"t1", "reset-password", "erin"⟩ memberWorld).1.code = 400 ∧
      (auth.Confirm sampleAuthDeps (AccountEnv.ok 9 "h:new" "tok")
        ⟨"t1", "reset-password", "erin"⟩ memberWorld).2 = memberWorld) ∧
    ((auth.NewPassword sampleAuthDeps (AccountEnv.ok 9 "h:new" "tok")
        ⟨"t2", "confirm-email", "dave", .decoded "new"⟩ memberWorld).1.code = 400 ∧
      (auth.NewPassword sampleAuthDeps (AccountEnv.ok 9 "h:new" "tok")
        ⟨"t2", "confirm-email", "dave", .decoded "new"⟩ memberWorld).2 = memberWorld) ∧
    (lookup (auth.Confirm sampleAuthDeps (AccountEnv.ok 9 "h:new" "tok")
        ⟨"t1", "confirm-email", "erin"⟩ memberWorld).2.users "erin").map
        (fun u => u.Confirmed) = some true ∧
    (lookup (auth.NewPassword sampleAuthDeps (AccountEnv.ok 9 "h:new" "tok")
        ⟨"t2", "reset-password", "dave", .decoded "new"⟩ memberWorld).2.users "dave").map
        (fun u => u.Password) = some "h:new" := by
  have h := token_purposes_not_interchangeable sampleAuthDeps (AccountEnv.ok 9 "h:new" "tok")
    memberWorld ⟨"t1", "reset-password", "erin"⟩ ⟨"t2", "confirm-email", "dave", .decoded "new"⟩
  have hc := h.1 (by decide)
  have hn := h.2 (by decide)
  refine ⟨⟨?_, hc.1⟩, ⟨?_, hn.1⟩, by decide, by decide⟩
  · rw [hc.2 (by decide)]; rfl
  · rw [hn.2 (by decide)]; rfl

/-! ## Login -/

/-- C29: `Login` responds 200 with a token and sets the JWT cookie only if the
username has a UserRecord, the supplied password matches the stored hash and
the record's `Confirmed` flag is true.  In every other case no token or cookie
is issued and no UserRecord is written (the users collection is as it was and
the handler makes no upsert, so `LastSeen` is not written); the reply is 404
for an unknown user, 401 for a wrong password and 401 for an account that is
not confirmed. -/
theorem Login_issues_token_only_when_verified (d : AuthDeps) (e : AccountEnv)
    (req : auth.LoginRequest) (w : World) :
    (((auth.Login d e req w).1.answer.code = 200 ∨
        (auth.Login d e req w).1.answer.token ≠ none ∨
        (auth.Login d e req w).1.cookie ≠ none) →
        ∃ name pwd u, req.body = .decoded (name, pwd) ∧
          lookup w.users (d.ToLower name) = some u ∧
          d.CompareHashAndPassword u.Password pwd = true ∧ u.Confirmed = true) ∧
      ((auth.Login d e req w).1.answer.code ≠ 200 →
        (auth.Login d e req w).1.answer.token = none ∧
        (auth.Login d e req w).1.cookie = none ∧
        (auth.Login d e req w).2.users = w.users ∧
        ∀ k, Effect.userUpsert k ∈ (auth.Login d e req w).2.trace →
          Effect.userUpsert k ∈ w.trace) ∧
      (∀ name pwd, req.body = .decoded (name, pwd) →
        ((e.getUserErr = true ∨ lookup w.users (d.ToLower name) = none) →
          (auth.Login d e req w).1.answer.code = 404) ∧
        (∀ u, e.getUserErr = false → lookup w.users (d.ToLower name) = some u →
          (d.CompareHashAndPassword u.Password pwd = false ∨ u.Confirmed = false) →
          (auth.Login d e req w).1.answer.code = 401)) := by
  obtain ⟨body⟩ := req
  cases body with
  | decoded a =>
    obtain ⟨name, pwd⟩ := a
    cases hg : e.getUserErr <;> cases hl : lookup w.users (d.ToLower name) with
    | none =>
      simp [auth.Login, GetByUsername_eq, hg, hl, auth.Answer.code, auth.Answer.token]
    | some u =>
      cases hc : d.CompareHashAndPassword u.Password pwd <;> cases hf : u.Confirmed <;>
        cases ht : e.signedToken <;>
        simp [auth.Login, GetByUsername_eq, hg, hl, hc, hf, ht, auth.Answer.code,
          auth.Answer.token, auth.comparePasswords, auth.createJwtToken,
          user.User.Save_users]
      all_goals exact ⟨name, pwd, ⟨rfl, rfl⟩, u, hl, hc, hf⟩
  | _ => simp [auth.Login, auth.Answer.code, auth.Answer.token]

/-- Witness for C29: dave, confirmed, logs in with his password and receives
the token and the cookie; with a wrong password, as erin, who is not confirmed,
and as an unknown user the answers are 401, 401 and 404, without token or
cookie, and the users collection is as it was. -/
theorem Login_issues_token_only_when_verified_witness :
    auth.Login sampleAuthDeps (AccountEnv.ok 9 "h" "tok") ⟨.decoded ("dave", "pw")⟩
        memberWorld =
        (⟨.loggedIn 200 "You were logged in !" "tok",
            some ⟨"JWTCookie", "tok", "/", "example", true, true⟩⟩,
          { memberWorld with
            users := [("dave", { sampleUser "dave" with
                Password := "h:pw", Confirmed := true, LastSeen := some 9 }),
              ("erin", { sampleUser "erin" with Password := "h:pw" })],
            trace := [.userGet "dave", .userUpsert "dave"] }) ∧
      ((auth.Login sampleAuthDeps (AccountEnv.ok 9 "h" "tok") ⟨.decoded ("dave", "guess")⟩
          memberWorld).1.answer.code = 401 ∧
        (auth.Login sampleAuthDeps (AccountEnv.ok 9 "h" "tok") ⟨.decoded ("dave", "guess")⟩
          memberWorld).1.cookie = none ∧
        (auth.Login sampleAuthDeps (AccountEnv.ok 9 "h" "tok") ⟨.decoded ("dave", "guess")⟩
          memberWorld).2.users = memberWorld.users) ∧
      (auth.Login sampleAuthDeps (AccountEnv.ok 9 "h" "tok") ⟨.decoded ("erin", "pw")⟩
        memberWorld).1.answer.code = 401 ∧
      (auth.Login sampleAuthDeps (AccountEnv.ok 9 "h" "tok") ⟨.decoded ("zed", "pw")⟩
        memberWorld).1.answer.code = 404 := by
  have h := Login_issues_token_only_when_verified sampleAuthDeps (AccountEnv.ok 9 "h" "tok")
    ⟨.decoded ("dave", "guess")⟩ memberWorld
  have h401 := (h.2.2 "dave" "guess" rfl).2 _ rfl rfl (Or.inl (by decide))
  have hrest := h.2.1 (by rw [h401]; decide)
  exact ⟨by decide, ⟨h401, hrest.2.1, hrest.2.2.1⟩, by decide, by decide⟩

/-! ## The admin handlers of internal/file -/

/-- C30: for every request whose context carries no user, or a user that is
not an admin, the handlers `update`, `patch`, `delete` and `getFiles` return
the Forbidden error and call no method of the file service: the world,
with its trace of calls, is returned as it was, whatever the service is. -/
theorem admin_handlers_forbidden (r : resource.AdminService) (req : resource.AdminRequest)
    (w : World) (h : req.user = none ∨ ∃ u, req.user = some u ∧ u.IsAdmin = false) :
    resource.update r req w = (.error (.Forbidden ""), w) ∧
      resource.patch r req w = (some (.Forbidden ""), w) ∧
      resource.delete r req w = (.error (.Forbidden ""), w) ∧
      resource.getFiles r req w = (.error (.Forbidden ""), w) := by
  rcases h with h | ⟨u, h, hu⟩
  · simp [resource.update, resource.patch, resource.delete, resource.getFiles, h]
  · simp [resource.update, resource.patch, resource.delete, resource.getFiles, h, hu]

/-- Witness for C30: a request without a user and a request of a user who is
not an admin are refused by `delete` and `getFiles` with the world untouched,
while the same request by an admin reaches the service. -/
theorem admin_handlers_forbidden_witness :
    resource.delete sampleAdminService (sampleAdminRequest none) scannedWorld =
        (.error (.Forbidden ""), scannedWorld) ∧
      resource.getFiles sampleAdminService (sampleAdminRequest (some ⟨false⟩)) scannedWorld =
        (.error (.Forbidden ""), scannedWorld) ∧
      resource.delete sampleAdminService (sampleAdminRequest (some ⟨true⟩)) scannedWorld =
        (.ok (200, "deleted"), scannedWorld.log (.serviceCall "Delete")) :=
  ⟨(admin_handlers_forbidden sampleAdminService (sampleAdminRequest none) scannedWorld
      (Or.inl rfl)).2.2.1,
    (admin_handlers_forbidden sampleAdminService (sampleAdminRequest (some ⟨false⟩))
      scannedWorld (Or.inr ⟨⟨false⟩, rfl, rfl⟩)).2.2.2,
    rfl⟩
end Saferwall
